import Mathlib

/-!
# imagetest: a verification development

A shallow embedding of `imagetest.go` (package `imagetest`).

Modelling conventions.

* A Go `string` is a Lean `String`; a Go `[]byte` is `Bytes`, an optional
  string whose `none` is the nil slice.
* A Go `error` is its `Error()` text; `Option String` is an error value with
  `none` for `nil`.
* The outside world is an `Env`: what `exec.Command(...).CombinedOutput()`
  returns for an argument vector and what the n-th `client.Head(url)` of one
  call of `checkHTTPConnectivity` returns.
* Every function returns, next to its Go result, the list of `Event`s it
  performed, in order.
* `testInParallel` is a step function on the program points of its goroutines,
  run under a schedule that says whose turn it is; properties are proved for
  every schedule. One call `f()` of a check is one step, and so are `wg.Add(1)`
  with the `go` statement that follows it; the methods of `testing.T` and of
  `sync.WaitGroup` are atomic.
* `t.Fatal` marks the test failed and ends the calling goroutine through
  `runtime.Goexit`; only deferred calls of that goroutine still run.
* The global `reuseImages` is an argument of `TestImageFromSource`.
-/

namespace Imagetest

/-! ## Data model -/

/-- A Go byte slice: `none` is the nil slice, `some s` holds the bytes `s`. -/
abbrev Bytes := Option String

/-- The text a byte slice prints as under the verb `%s`. -/
def Bytes.str : Bytes → String
  | none => ""
  | some s => s

/-- The interactions with the outside world. -/
inductive Event where
  /-- One `exec.Command(argv[0], argv[1:]...).CombinedOutput()`. -/
  | command (argv : List String)
  /-- One `client.Head(url)`. -/
  | head (url : String)
  /-- One `time.Sleep` of the given number of seconds. -/
  | sleep (seconds : Nat)
  /-- The deferred `resp.Body.Close()`. -/
  | closeBody
  deriving DecidableEq, Repr

/-- The two results of `CombinedOutput`. -/
structure CmdResult where
  out : Bytes
  err : Option String
  deriving DecidableEq, Repr

/-- The two ways `client.Head` ends: `err != nil`, or a response. -/
inductive HeadResult where
  | transportError (e : String)
  | response (statusCode : Int)
  deriving DecidableEq, Repr

/-- The outside world. -/
structure Env where
  /-- The result of running the command with this argument vector. -/
  cmd : List String → CmdResult
  /-- The result of the HEAD request of attempt `n` (from 0) to `url`. -/
  head : String → Nat → HeadResult

/-! ## Library functions used by the source -/

/-- The function `cmd.CombinedOutput()` for `exec.Command(argv...)`. -/
def CombinedOutput (env : Env) (argv : List String) : CmdResult × List Event :=
  (env.cmd argv, [Event.command argv])

/-- The text of an error value under `%v`. -/
def fmtErr : Option String → String
  | none => "<nil>"
  | some e => e

/-- The call `fmt.Errorf("%s: %s", err, b)`. -/
def wrapErr (err : String) (b : Bytes) : String :=
  err ++ ": " ++ b.str

/-- The predicate `unicode.IsSpace`: the Latin-1 spaces `\t \n \v \f \r`,
space, U+0085 and U+00A0, and beyond Latin-1 the code points with the property
White_Space. -/
def isSpace (c : Char) : Bool :=
  let n := c.toNat
  (0x09 ≤ n && n ≤ 0x0d) || n == 0x20 || n == 0x85 || n == 0xa0 || n == 0x1680 ||
    (0x2000 ≤ n && n ≤ 0x200a) || n == 0x2028 || n == 0x2029 || n == 0x202f ||
    n == 0x205f || n == 0x3000

/-- The function `strings.TrimSpace`: the string without its leading and
trailing white space. -/
def TrimSpace (s : String) : String :=
  ⟨((s.data.dropWhile isSpace).reverse.dropWhile isSpace).reverse⟩

/-- Search of `sub` in `b` from the left, position by position:
`Index(b, sub) != -1`. -/
def containsChars : List Char → List Char → Bool
  | [], sub => sub.isEmpty
  | c :: cs, sub => sub.isPrefixOf (c :: cs) || containsChars cs sub

/-- The call `bytes.Contains(b, []byte(sub))`. -/
def Contains (b : Bytes) (sub : String) : Bool :=
  containsChars b.str.data sub.data

/-- The string `w` occurs in `b` as a contiguous run of characters. -/
def Occurs (w b : String) : Prop :=
  ∃ l r : List Char, b.data = l ++ w.data ++ r

/-! ## The helpers around `sti` and `docker` -/

/-- The function `buildApp`. -/
def buildApp (env : Env) (builderImage source contextDir outputImage : String) :
    CmdResult × List Event :=
  CombinedOutput env
    ["sti", "build", "--force-pull=false", "--context-dir=" ++ contextDir,
      source, builderImage, outputImage]

/-- The function `runApp`. -/
def runApp (env : Env) (imageName : String) : (String × Option String) × List Event :=
  let r := CombinedOutput env ["docker", "run", "--user=12345", "-p", "8080", "-d", imageName]
  match r.1.err with
  | some err => (("", some (wrapErr err r.1.out)), r.2)
  | none => ((TrimSpace r.1.out.str, none), r.2)

/-- The function `stopTestApp`. -/
def stopTestApp (env : Env) (containerID : String) : Option String × List Event :=
  let r := CombinedOutput env ["docker", "rm", "-f", containerID]
  match r.1.err with
  | some err => (some (wrapErr err r.1.out), r.2)
  | none => (none, r.2)

/-- The function `inspectContainerIP`. -/
def inspectContainerIP (env : Env) (containerID : String) :
    (String × Option String) × List Event :=
  let r := CombinedOutput env
    ["docker", "inspect", "--format='\x7b\x7b .NetworkSettings.IPAddress \x7d\x7d'", containerID]
  match r.1.err with
  | some err => (("", some (wrapErr err r.1.out)), r.2)
  | none => ((TrimSpace r.1.out.str, none), r.2)

/-- The function `checkDockerRunOutputContains`. -/
def checkDockerRunOutputContains (env : Env) (imageName : String) (command : List String)
    (expectedOutput : String) : Option String × List Event :=
  let r := CombinedOutput env ("docker" :: (["run", "--rm", imageName] ++ command))
  match r.1.err with
  | some err => (some (wrapErr err r.1.out), r.2)
  | none =>
    if !Contains r.1.out expectedOutput then
      (some ("Docker run output: got '" ++ r.1.out.str ++ "', want '" ++ expectedOutput ++ "'"),
        r.2)
    else (none, r.2)

/-- The function `checkDockerExecOutputContains`. -/
def checkDockerExecOutputContains (env : Env) (containerID : String) (command : List String)
    (expectedOutput : String) : Option String × List Event :=
  let r := CombinedOutput env ("docker" :: (["exec", containerID] ++ command))
  match r.1.err with
  | some err => (some (wrapErr err r.1.out), r.2)
  | none =>
    if !Contains r.1.out expectedOutput then
      (some ("Docker exec output: got '" ++ r.1.out.str ++ "', want '" ++ expectedOutput ++ "'"),
        r.2)
    else (none, r.2)

/-- The function `CheckSCLEnabled`: the check it returns, applied to
`imageName` and `containerID`. -/
def CheckSCLEnabled (env : Env) (command expectedOutput : String) :
    String → String → Option String × List Event :=
  fun imageName containerID =>
    let r1 := checkDockerExecOutputContains env containerID ["bash", "-c", command] expectedOutput
    match r1.1 with
    | some err => (some err, r1.2)
    | none =>
      let r2 := checkDockerRunOutputContains env imageName ["bash", "-c", command] expectedOutput
      (r2.1, r1.2 ++ r2.2)

/-- The function `checkSCLEnabled`. -/
def checkSCLEnabled (env : Env) (imageName containerID : String) : Option String × List Event :=
  let r1 := checkDockerExecOutputContains env containerID ["bash", "-c", "ruby --version"]
    "ruby 2.0.0"
  match r1.1 with
  | some err => (some err, r1.2)
  | none =>
    let r2 := checkDockerRunOutputContains env imageName ["bash", "-c", "ruby --version"]
      "ruby 2.0.0"
    (r2.1, r1.2 ++ r2.2)

/-! ## checkHTTPConnectivity -/

/-- The constant `maxAttempts`. -/
def maxAttempts : Nat := 10

/-- The constant `http.StatusOK`. -/
def StatusOK : Int := 200

/-- The `for attempt := 0; attempt < maxAttempts; attempt++` loop with
`remaining = maxAttempts - attempt` iterations to go and the variable `err`;
the code after the loop is the case `remaining = 0`. -/
def checkHTTPConnectivity.loop (env : Env) (url : String) :
    Nat → Option String → Option String × List Event
  | 0, err =>
    (some ("failed after " ++ toString maxAttempts ++ " attempts: " ++ fmtErr err), [])
  | remaining + 1, _ =>
    match env.head url (maxAttempts - (remaining + 1)) with
    | .transportError e =>
      let r := checkHTTPConnectivity.loop env url remaining (some e)
      (r.1, Event.head url :: Event.sleep 1 :: r.2)
    | .response statusCode =>
      if statusCode ≠ StatusOK then
        (some ("HTTP status: got " ++ toString statusCode ++ ", want " ++ toString StatusOK),
          [Event.head url, Event.closeBody])
      else
        (none, [Event.head url, Event.closeBody])

/-- The function `checkHTTPConnectivity`. -/
def checkHTTPConnectivity (env : Env) (url : String) : Option String × List Event :=
  checkHTTPConnectivity.loop env url maxAttempts none

/-- The events of `n` failed attempts: a HEAD request, then a one second sleep,
`n` times. -/
def failedAttempts (url : String) : Nat → List Event
  | 0 => []
  | n + 1 => Event.head url :: Event.sleep 1 :: failedAttempts url n

/-- Whether an event is a HEAD request. -/
def Event.isHead : Event → Bool
  | .head _ => true
  | _ => false

/-- Whether an event is a sleep. -/
def Event.isSleep : Event → Bool
  | .sleep _ => true
  | _ => false

/-- The number of HEAD requests among events. -/
def headCount (evs : List Event) : Nat := evs.countP Event.isHead

/-- The number of sleeps among events. -/
def sleepCount (evs : List Event) : Nat := evs.countP Event.isSleep

/-- The error variable after `m` failed attempts starting with `remaining`
iterations to go. -/
def errAfter (errs : Nat → String) (remaining m : Nat) (err : Option String) : Option String :=
  if m = 0 then err else some (errs (maxAttempts - remaining + m - 1))

/-! ## testing.T -/

/-- The part of a `*testing.T` the source uses: the failed mark and the
messages logged through it. Its methods are serialized by the test's mutex. -/
structure T where
  failed : Bool
  log : List String
  deriving DecidableEq, Repr

/-- The method `t.Error(err)`: log the error and mark the test failed. -/
def T.Error (t : T) (err : String) : T :=
  { failed := true, log := t.log ++ [err] }

/-- The effect on `t` of `t.Fatal(err)`: log the error and mark the test
failed. `Fatal` then calls `runtime.Goexit`, which ends the calling goroutine
after its deferred calls; the caller of this function models that. -/
def T.Fatal (t : T) (err : String) : T :=
  { failed := true, log := t.log ++ [err] }

/-- The statement `if err != nil { t.Error(err) }`. -/
def T.report (t : T) : Option String → T
  | some e => t.Error e
  | none => t

/-! ## testInParallel -/

/-- How a call `f()` of a check ends: it returns an error value, or it calls
`t.Fatal(msg)` and so leaves its goroutine through `runtime.Goexit`. -/
inductive Outcome where
  | ret (err : Option String)
  | goexit (msg : String)
  deriving DecidableEq, Repr

/-- One run of a check: the events it performs and how it ends. -/
structure CheckRun where
  events : List Event
  outcome : Outcome
  deriving DecidableEq, Repr

/-- A value of type `func() error`. -/
abbrev Check := Unit → CheckRun

/-- The program point of the goroutine started by one iteration of the loop of
`testInParallel`. -/
inductive G where
  /-- Started by `go`; `err := f()` comes next. -/
  | ready
  /-- The call `f()` returned `err`; `if err != nil { t.Error(err) }` comes next. -/
  | called (err : Option String)
  /-- Past the `if`; `wg.Done()` comes next. -/
  | reported (err : Option String)
  /-- Past `wg.Done()`: the goroutine has finished. -/
  | done (err : Option String)
  /-- Ended inside `f()` by `runtime.Goexit`; `wg.Done()` was not reached. -/
  | dead (msg : String)
  deriving DecidableEq, Repr

/-- Whose turn it is: the goroutine that called `testInParallel`, or the
goroutine started by iteration `i`. -/
inductive Action where
  | main
  | go (i : Nat)
  deriving DecidableEq, Repr

/-- The state of one call of `testInParallel`. -/
structure PState where
  /-- The goroutines started so far, by iteration. -/
  gs : List G
  /-- The counter of the wait group. -/
  wg : Nat
  /-- Whether `wg.Wait()` has returned, and with it `testInParallel`. -/
  returned : Bool
  /-- The test handle. -/
  t : T
  /-- The events performed by the checks. -/
  trace : List Event
  /-- The iterations whose check was called, in the order of the calls. -/
  calls : List Nat
  deriving DecidableEq, Repr

/-- The state on entry to `testInParallel`. -/
def PState.init (t : T) : PState :=
  { gs := [], wg := 0, returned := false, t := t, trace := [], calls := [] }

/-- One step of `testInParallel` by the goroutine named by the action, or
`none` when that goroutine cannot move.

The main goroutine runs one iteration of the loop (`wg.Add(1)` and the `go`
statement), and after the loop returns from `wg.Wait()` once the counter is
zero. The goroutine of iteration `i` calls `f()`, then reports the error, then
calls `wg.Done()`. A call `f()` is one step: the events of a check are kept
together. -/
def step (fs : List Check) (s : PState) : Action → Option PState
  | .main =>
    if s.gs.length < fs.length then
      some { s with gs := s.gs ++ [G.ready], wg := s.wg + 1 }
    else if s.wg = 0 ∧ s.returned = false then
      some { s with returned := true }
    else none
  | .go i =>
    match s.gs[i]?, fs[i]? with
    | some G.ready, some f =>
      match (f ()).outcome with
      | .ret err =>
        some { s with
          gs := s.gs.set i (G.called err)
          trace := s.trace ++ (f ()).events
          calls := s.calls ++ [i] }
      | .goexit msg =>
        some { s with
          gs := s.gs.set i (G.dead msg)
          t := s.t.Fatal msg
          trace := s.trace ++ (f ()).events
          calls := s.calls ++ [i] }
    | some (G.called err), _ =>
      some { s with gs := s.gs.set i (G.reported err), t := s.t.report err }
    | some (G.reported err), _ =>
      some { s with gs := s.gs.set i (G.done err), wg := s.wg - 1 }
    | _, _ => none

/-- The steps of a schedule in turn; a goroutine that cannot move when its turn
comes leaves the state as it is. -/
def run (fs : List Check) (sched : List Action) (s : PState) : PState :=
  sched.foldl (fun s a => (step fs s a).getD s) s

/-- The function `testInParallel` under a schedule: the state reached. The call
has returned when `returned` holds of it. -/
def testInParallel (t : T) (fs : List Check) (sched : List Action) : PState :=
  run fs sched (PState.init t)

/-- The error a check returns, if it returns one. -/
def Check.err (f : Check) : Option String :=
  match (f ()).outcome with
  | .ret err => err
  | .goexit _ => none

/-- Whether the goroutine has yet to call `wg.Done()`. -/
def G.pending : G → Bool
  | .done _ => false
  | _ => true

/-- The message the goroutine has logged through `t`. -/
def G.logged : G → Option String
  | .reported err => err
  | .done err => err
  | .dead msg => some msg
  | _ => none

/-- How the call `f()` of the goroutine ended, once it has. -/
def G.result : G → Option Outcome
  | .ready => none
  | .called err => some (.ret err)
  | .reported err => some (.ret err)
  | .done err => some (.ret err)
  | .dead msg => some (.goexit msg)

/-- The events of the checks of the given iterations, in that order. -/
def eventsOfCalls (fs : List Check) : List Nat → List Event
  | [] => []
  | i :: is =>
    (match fs[i]? with
      | some f => (f ()).events
      | none => []) ++ eventsOfCalls fs is

/-- The number of steps left before `testInParallel` returns. -/
def G.stepsLeft : G → Nat
  | .ready => 3
  | .called _ => 2
  | .reported _ => 1
  | _ => 0

/-- The schedule that runs the whole loop, then each goroutine to its end in
turn, then the wait. -/
def seqSchedule (n : Nat) : List Action :=
  List.replicate n Action.main ++
    (List.range n).flatMap (fun i => [Action.go i, Action.go i, Action.go i]) ++ [Action.main]

/-- A bound on the number of steps before `testInParallel` returns: four for
each iteration not yet run, the steps left to each goroutine, one for the
wait. -/
def stepsToReturn (fs : List Check) (s : PState) : Nat :=
  4 * (fs.length - s.gs.length) + (s.gs.map G.stepsLeft).sum + (if s.returned then 0 else 1)

/-- How the call `f()` of iteration `i` ended, once it has. -/
def resultAt (gs : List G) (i : Nat) : Option Outcome :=
  (gs[i]?).bind G.result

/-- The invariant of `testInParallel` started with test handle `t0`. -/
structure Inv (fs : List Check) (t0 : T) (s : PState) : Prop where
  /-- No more goroutines than checks. -/
  len : s.gs.length ≤ fs.length
  /-- The counter is the number of goroutines that have not called `wg.Done()`. -/
  wg_eq : s.wg = s.gs.countP G.pending
  /-- The wait returns only after the loop, with the counter at zero. -/
  ret : s.returned = true → s.gs.length = fs.length ∧ s.wg = 0
  /-- The new log entries are the messages of the goroutines, in some order. -/
  log : ∃ entries, s.t.log = t0.log ++ entries ∧ entries.Perm (s.gs.filterMap G.logged)
  /-- The test is marked failed once a goroutine has logged a message. -/
  failed : s.t.failed = (t0.failed || s.gs.any fun g => g.logged.isSome)
  /-- A check has been called once if its goroutine is past the call, else never. -/
  calls : ∀ i, s.calls.count i = if (resultAt s.gs i).isSome then 1 else 0
  /-- The recorded result of a goroutine is the outcome of its check. -/
  res : ∀ i o, resultAt s.gs i = some o → ∃ f, fs[i]? = some f ∧ (f ()).outcome = o
  /-- The events are those of the called checks, in the order of the calls. -/
  trace : s.trace = eventsOfCalls fs s.calls

/-! ## TestImageFromSource -/

/-- How far a call of `TestImageFromSource` got. -/
inductive Status where
  /-- The function returned; its deferred call has run. -/
  | finished
  /-- The function was left through `t.Fatal` before any `defer`. -/
  | fatal
  /-- The function is inside `testInParallel`, which has not returned. -/
  | waiting
  deriving DecidableEq, Repr

/-- What a call of `TestImageFromSource` did. -/
structure Scenario where
  t : T
  trace : List Event
  status : Status
  deriving DecidableEq, Repr

/-- The first function literal passed to `testInParallel`. -/
def connectivityCheck (env : Env) (containerID : String) : Check := fun _ =>
  let r := inspectContainerIP env containerID
  match r.1.2 with
  | some err => { events := r.2, outcome := .goexit err }
  | none =>
    let url := "http://" ++ r.1.1 ++ ":8080"
    let c := checkHTTPConnectivity env url
    { events := r.2 ++ c.2, outcome := .ret c.1 }

/-- The second function literal passed to `testInParallel`. -/
def sclCheck (env : Env) (outputImage containerID : String) : Check := fun _ =>
  let r := checkSCLEnabled env outputImage containerID
  { events := r.2, outcome := .ret r.1 }

/-- The part of `TestImageFromSource` from the call of `runApp` on; `trace` holds
the events so far. -/
def TestImageFromSource.fromRun (env : Env) (sched : List Action) (t : T) (trace : List Event)
    (outputImage : String) : Scenario :=
  let r := runApp env outputImage
  match r.1.2 with
  | some err => { t := t.Fatal err, trace := trace ++ r.2, status := .fatal }
  | none =>
    let containerID := r.1.1
    let p := testInParallel t
      [connectivityCheck env containerID, sclCheck env outputImage containerID] sched
    if p.returned then
      { t := p.t
        trace := trace ++ r.2 ++ p.trace ++ (stopTestApp env containerID).2
        status := .finished }
    else
      { t := p.t, trace := trace ++ r.2 ++ p.trace, status := .waiting }

/-- The function `TestImageFromSource`, with the global `reuseImages` as an
argument and the two goroutines of its checks run under the schedule. The
deferred `stopTestApp(containerID)` runs when the function returns; the error
it returns is dropped. -/
def TestImageFromSource (reuseImages : Bool) (env : Env) (sched : List Action) (t : T)
    (builderImage source contextDir outputImage : String) : Scenario :=
  if !reuseImages then
    let b := buildApp env builderImage source contextDir outputImage
    match b.1.err with
    | some err =>
      match b.1.out with
      | some out => { t := t.Fatal ("\n" ++ out ++ "\n" ++ err), trace := b.2, status := .fatal }
      | none => { t := t.Fatal err, trace := b.2, status := .fatal }
    | none => TestImageFromSource.fromRun env sched t b.2 outputImage
  else TestImageFromSource.fromRun env sched t [] outputImage

/-- Whether an event is a run of the builder, `sti`. -/
def Event.isBuild : Event → Bool
  | .command ("sti" :: _) => true
  | _ => false

/-- Whether an event is a removal of a container, `docker rm`. -/
def Event.isTeardown : Event → Bool
  | .command ("docker" :: "rm" :: _) => true
  | _ => false

/-- The event of `buildApp`. -/
def buildEvent (builderImage source contextDir outputImage : String) : Event :=
  .command ["sti", "build", "--force-pull=false", "--context-dir=" ++ contextDir,
    source, builderImage, outputImage]

/-- The event of `runApp`. -/
def runEvent (imageName : String) : Event :=
  .command ["docker", "run", "--user=12345", "-p", "8080", "-d", imageName]

/-- The event of `inspectContainerIP`. -/
def inspectEvent (containerID : String) : Event :=
  .command ["docker", "inspect", "--format='\x7b\x7b .NetworkSettings.IPAddress \x7d\x7d'",
    containerID]

/-- The event of `stopTestApp`. -/
def stopEvent (containerID : String) : Event :=
  .command ["docker", "rm", "-f", containerID]

/-- A server that refuses the first two connections and then answers 200. -/
def envThird : Env where
  cmd := fun _ => ⟨none, none⟩
  head := fun _ n => if n < 2 then .transportError "connection refused" else .response 200

/-- A server that answers 500 at once. -/
def envBroken : Env where
  cmd := fun _ => ⟨none, none⟩
  head := fun _ _ => .response 500

/-- An endpoint that is never reachable; the error names the attempt. -/
def envDown : Env where
  cmd := fun _ => ⟨none, none⟩
  head := fun _ n => .transportError ("dial tcp: timeout #" ++ toString n)

/-- An image whose running container has Ruby 2.0.0 and whose fresh run prints
Ruby 1.8.7. -/
def envRuby : Env where
  cmd := fun argv =>
    if argv = ["docker", "exec", "c1", "bash", "-c", "ruby --version"] then
      ⟨some "ruby 2.0.0p0 (2013-02-24) [x86_64-linux]\n", none⟩
    else ⟨some "ruby 1.8.7\n", none⟩
  head := fun _ _ => .response 200

/-- An engine whose every command exits with status 1 after printing a
diagnostic. -/
def envFailing : Env where
  cmd := fun _ => ⟨some "Cannot connect to the Docker daemon.\n", some "exit status 1"⟩
  head := fun _ _ => .transportError "connection refused"

/-- Three checks: the first and the last fail, the second succeeds. -/
def checks3 : List Check :=
  [fun _ => { events := [Event.head "http://a"], outcome := .ret (some "no route") },
   fun _ => { events := [Event.command ["true"]], outcome := .ret none },
   fun _ => { events := [], outcome := .ret (some "want 'x'") }]

/-- A healthy application, except that removing its container fails. -/
def envRmFails : Env where
  cmd := fun argv =>
    match argv with
    | "docker" :: "rm" :: _ => ⟨some "Error: No such container: c1\n", some "exit status 1"⟩
    | "docker" :: "inspect" :: _ => ⟨some "172.17.0.2\n", none⟩
    | "docker" :: "run" :: "--rm" :: _ => ⟨some "ruby 2.0.0p0\n", none⟩
    | "docker" :: "run" :: _ => ⟨some "c1\n", none⟩
    | _ => ⟨some "ruby 2.0.0p0\n", none⟩
  head := fun _ _ => .response 200

/-- A healthy application, except that inspecting its container fails. -/
def envNoInspect : Env where
  cmd := fun argv =>
    match argv with
    | "docker" :: "inspect" :: _ => ⟨some "Error: No such object: c1\n", some "exit status 1"⟩
    | "docker" :: "run" :: "--rm" :: _ => ⟨some "ruby 2.0.0p0\n", none⟩
    | "docker" :: "run" :: _ => ⟨some "c1\n", none⟩
    | _ => ⟨some "ruby 2.0.0p0\n", none⟩
  head := fun _ _ => .response 200

/-- An image with Ruby 2.0.0 whose `docker exec` prints the version and then
exits with status 1. -/
def envExecExit1 : Env where
  cmd := fun argv =>
    match argv with
    | "docker" :: "exec" :: _ => ⟨some "ruby 2.0.0p0\n", some "exit status 1"⟩
    | _ => ⟨some "ruby 2.0.0p0\n", none⟩
  head := fun _ _ => .response 200

/-! # Theorems -/

/-! ## Theorems: checkHTTPConnectivity -/

theorem loop_zero (env : Env) (url : String) (err : Option String) :
    checkHTTPConnectivity.loop env url 0 err =
      (some ("failed after " ++ toString maxAttempts ++ " attempts: " ++ fmtErr err), []) := by
  simp [checkHTTPConnectivity.loop]

theorem loop_transportError (env : Env) (url : String) (r : Nat) (err : Option String)
    (e : String) (h : env.head url (maxAttempts - (r + 1)) = .transportError e) :
    checkHTTPConnectivity.loop env url (r + 1) err =
      ((checkHTTPConnectivity.loop env url r (some e)).1,
        Event.head url :: Event.sleep 1 :: (checkHTTPConnectivity.loop env url r (some e)).2) := by
  simp [checkHTTPConnectivity.loop, h]

theorem loop_response (env : Env) (url : String) (r : Nat) (err : Option String)
    (s : Int) (h : env.head url (maxAttempts - (r + 1)) = .response s) :
    checkHTTPConnectivity.loop env url (r + 1) err =
      (if s ≠ StatusOK then
        some ("HTTP status: got " ++ toString s ++ ", want " ++ toString StatusOK)
       else none, [Event.head url, Event.closeBody]) := by
  simp only [checkHTTPConnectivity.loop, h]
  split <;> rfl

/-- Running the loop through `m` attempts that all end in a transport error. -/
theorem loop_failed (env : Env) (url : String) (errs : Nat → String) (m : Nat) :
    ∀ (r : Nat) (err : Option String), m ≤ r → r ≤ maxAttempts →
      (∀ j, j < m →
        env.head url (maxAttempts - r + j) = .transportError (errs (maxAttempts - r + j))) →
      checkHTTPConnectivity.loop env url r err =
        ((checkHTTPConnectivity.loop env url (r - m) (errAfter errs r m err)).1,
          failedAttempts url m ++
            (checkHTTPConnectivity.loop env url (r - m) (errAfter errs r m err)).2) := by
  induction m with
  | zero =>
    intro r err _ _ _
    simp [errAfter, failedAttempts]
  | succ m ih =>
    intro r err hm hr hfail
    obtain ⟨r, rfl⟩ : ∃ q, r = q + 1 := ⟨r - 1, by omega⟩
    have h0 := hfail 0 (by omega)
    simp only [Nat.add_zero] at h0
    rw [loop_transportError env url r err _ h0]
    have hshift : ∀ j, j < m → env.head url (maxAttempts - r + j) =
        .transportError (errs (maxAttempts - r + j)) := by
      intro j hj
      have h := hfail (j + 1) (by omega)
      have e : maxAttempts - (r + 1) + (j + 1) = maxAttempts - r + j := by omega
      rw [e] at h
      exact h
    rw [ih r (some (errs (maxAttempts - (r + 1)))) (by omega) (by omega) hshift]
    have herr : errAfter errs r m (some (errs (maxAttempts - (r + 1)))) =
        errAfter errs (r + 1) (m + 1) err := by
      unfold errAfter
      by_cases hm0 : m = 0
      · subst hm0; simp
      · have e : maxAttempts - r + m - 1 = maxAttempts - (r + 1) + (m + 1) - 1 := by omega
        simp [hm0, e]
    have hsub : r + 1 - (m + 1) = r - m := by omega
    rw [herr, hsub]
    simp [failedAttempts]

theorem headCount_failedAttempts (url : String) (n : Nat) (rest : List Event) :
    headCount (failedAttempts url n ++ rest) = n + headCount rest := by
  induction n with
  | zero => simp [failedAttempts]
  | succ n ih =>
    simp only [headCount] at ih
    simp [failedAttempts, headCount, List.countP_cons, Event.isHead, ih]
    omega

theorem sleepCount_failedAttempts (url : String) (n : Nat) (rest : List Event) :
    sleepCount (failedAttempts url n ++ rest) = n + sleepCount rest := by
  induction n with
  | zero => simp [failedAttempts]
  | succ n ih =>
    simp only [sleepCount] at ih
    simp [failedAttempts, sleepCount, List.countP_cons, Event.isSleep, ih]
    omega

/-- The result of the checker when attempt `k` is the first with a response. -/
theorem check_first_response (env : Env) (url : String) (k : Nat) (s : Int)
    (hk1 : 1 ≤ k) (hk : k ≤ 10)
    (hfail : ∀ j, j + 1 < k → ∃ e, env.head url j = .transportError e)
    (hresp : env.head url (k - 1) = .response s) :
    checkHTTPConnectivity env url =
      (if s ≠ StatusOK then
        some ("HTTP status: got " ++ toString s ++ ", want " ++ toString StatusOK)
       else none,
       failedAttempts url (k - 1) ++ [Event.head url, Event.closeBody]) := by
  classical
  let errs : Nat → String := fun j =>
    match env.head url j with
    | .transportError e => e
    | .response _ => ""
  have hf : ∀ j, j < k - 1 →
      env.head url (maxAttempts - maxAttempts + j) =
        .transportError (errs (maxAttempts - maxAttempts + j)) := by
    intro j hj
    obtain ⟨e, he⟩ := hfail j (by omega)
    simp only [Nat.sub_self, Nat.zero_add]
    simp [errs, he]
  unfold checkHTTPConnectivity
  rw [loop_failed env url errs (k - 1) maxAttempts none (by simp [maxAttempts]; omega)
    (Nat.le_refl _) hf]
  obtain ⟨q, hq⟩ : ∃ q, maxAttempts - (k - 1) = q + 1 := ⟨10 - k, by simp [maxAttempts]; omega⟩
  have hidx : maxAttempts - (q + 1) = k - 1 := by simp [maxAttempts] at hq ⊢; omega
  rw [hq, loop_response env url q _ s (by rw [hidx]; exact hresp)]

/-- C1: if the first `k - 1` HEAD requests (`1 ≤ k ≤ 10`) end in a transport
error and request `k` answers 200, `checkHTTPConnectivity` returns nil, having
performed `k - 1` times a HEAD request followed by a one second sleep and then
one last HEAD request with no sleep after it: `k` requests and `k - 1` sleeps. -/
theorem checkHTTPConnectivity_succeeds_on_attempt (env : Env) (url : String) (k : Nat)
    (hk1 : 1 ≤ k) (hk : k ≤ 10)
    (hfail : ∀ j, j + 1 < k → ∃ e, env.head url j = .transportError e)
    (hok : env.head url (k - 1) = .response 200) :
    (checkHTTPConnectivity env url).1 = none ∧
    (checkHTTPConnectivity env url).2 =
      failedAttempts url (k - 1) ++ [Event.head url, Event.closeBody] ∧
    headCount (checkHTTPConnectivity env url).2 = k ∧
    sleepCount (checkHTTPConnectivity env url).2 = k - 1 := by
  rw [check_first_response env url k 200 hk1 hk hfail hok]
  refine ⟨by simp [StatusOK], rfl, ?_, ?_⟩
  · rw [headCount_failedAttempts]
    simp [headCount, Event.isHead]
    omega
  · rw [sleepCount_failedAttempts]
    simp [sleepCount, Event.isSleep]

theorem checkHTTPConnectivity_succeeds_on_attempt_witness :
    (1 ≤ 3 ∧ 3 ≤ 10) ∧
    (∀ j, j + 1 < 3 → ∃ e, envThird.head "http://172.17.0.2:8080" j = .transportError e) ∧
    envThird.head "http://172.17.0.2:8080" (3 - 1) = .response 200 ∧
    (checkHTTPConnectivity envThird "http://172.17.0.2:8080").1 = none ∧
    (checkHTTPConnectivity envThird "http://172.17.0.2:8080").2 =
      failedAttempts "http://172.17.0.2:8080" (3 - 1) ++
        [Event.head "http://172.17.0.2:8080", Event.closeBody] ∧
    headCount (checkHTTPConnectivity envThird "http://172.17.0.2:8080").2 = 3 ∧
    sleepCount (checkHTTPConnectivity envThird "http://172.17.0.2:8080").2 = 3 - 1 :=
  have h1 : ∀ j, j + 1 < 3 →
      ∃ e, envThird.head "http://172.17.0.2:8080" j = .transportError e := by
    intro j hj
    exact ⟨"connection refused", by simp only [envThird]; rw [if_pos (by omega)]⟩
  have h2 : envThird.head "http://172.17.0.2:8080" (3 - 1) = .response 200 := by
    simp [envThird]
  ⟨by decide, h1, h2,
    checkHTTPConnectivity_succeeds_on_attempt envThird "http://172.17.0.2:8080" 3
      (by decide) (by decide) h1 h2⟩

/-- C2: if attempt `k ≤ 10` is the first to obtain a response and its status
code `s` is not 200, `checkHTTPConnectivity` fails with the error
"HTTP status: got s, want 200", and the HEAD request of attempt `k` is the last
one: the checker performed `k` requests in all, none after the response. -/
theorem checkHTTPConnectivity_fails_on_status (env : Env) (url : String) (k : Nat) (s : Int)
    (hk1 : 1 ≤ k) (hk : k ≤ 10)
    (hfail : ∀ j, j + 1 < k → ∃ e, env.head url j = .transportError e)
    (hresp : env.head url (k - 1) = .response s) (hs : s ≠ 200) :
    (checkHTTPConnectivity env url).1 =
      some ("HTTP status: got " ++ toString s ++ ", want 200") ∧
    (checkHTTPConnectivity env url).2 =
      failedAttempts url (k - 1) ++ [Event.head url, Event.closeBody] ∧
    headCount (checkHTTPConnectivity env url).2 = k := by
  rw [check_first_response env url k s hk1 hk hfail hresp]
  refine ⟨?_, rfl, ?_⟩
  · have h200 : ", want " ++ toString StatusOK = ", want 200" := by decide
    have hs2 : s ≠ StatusOK := hs
    rw [if_pos hs2, String.append_assoc, h200]
  · rw [headCount_failedAttempts]
    simp [headCount, Event.isHead]
    omega

theorem checkHTTPConnectivity_fails_on_status_witness :
    (1 ≤ 1 ∧ 1 ≤ 10) ∧
    (∀ j, j + 1 < 1 → ∃ e, envBroken.head "http://172.17.0.2:8080" j = .transportError e) ∧
    envBroken.head "http://172.17.0.2:8080" (1 - 1) = .response 500 ∧
    (500 : Int) ≠ 200 ∧
    (checkHTTPConnectivity envBroken "http://172.17.0.2:8080").1 =
      some ("HTTP status: got " ++ toString (500 : Int) ++ ", want 200") ∧
    (checkHTTPConnectivity envBroken "http://172.17.0.2:8080").2 =
      failedAttempts "http://172.17.0.2:8080" (1 - 1) ++
        [Event.head "http://172.17.0.2:8080", Event.closeBody] ∧
    headCount (checkHTTPConnectivity envBroken "http://172.17.0.2:8080").2 = 1 :=
  have h1 : ∀ j, j + 1 < 1 →
      ∃ e, envBroken.head "http://172.17.0.2:8080" j = .transportError e := by
    intro j hj
    omega
  ⟨by decide, h1, rfl, by decide,
    checkHTTPConnectivity_fails_on_status envBroken "http://172.17.0.2:8080" 1 500
      (by decide) (by decide) h1 rfl (by decide)⟩

/-- C3: if every one of the ten HEAD requests ends in a transport error,
`checkHTTPConnectivity` performs exactly ten HEAD requests (each followed by a
one second sleep) and fails with "failed after 10 attempts: e", where `e` is
the error of the tenth request. -/
theorem checkHTTPConnectivity_fails_after_ten (env : Env) (url : String) (errs : Nat → String)
    (hfail : ∀ j, j < 10 → env.head url j = .transportError (errs j)) :
    (checkHTTPConnectivity env url).1 = some ("failed after 10 attempts: " ++ errs 9) ∧
    (checkHTTPConnectivity env url).2 = failedAttempts url 10 ∧
    headCount (checkHTTPConnectivity env url).2 = 10 := by
  have hf : ∀ j, j < maxAttempts →
      env.head url (maxAttempts - maxAttempts + j) =
        .transportError (errs (maxAttempts - maxAttempts + j)) := by
    intro j hj
    simp only [Nat.sub_self, Nat.zero_add]
    exact hfail j hj
  unfold checkHTTPConnectivity
  rw [loop_failed env url errs maxAttempts maxAttempts none (Nat.le_refl _) (Nat.le_refl _) hf]
  rw [Nat.sub_self, loop_zero]
  have h10 : "failed after " ++ toString maxAttempts ++ " attempts: " =
      "failed after 10 attempts: " := by decide
  refine ⟨?_, ?_, ?_⟩
  · rw [h10]
    simp [errAfter, maxAttempts, fmtErr]
  · simp [maxAttempts]
  · have := headCount_failedAttempts url 10 []
    simpa [maxAttempts, headCount] using this

theorem checkHTTPConnectivity_fails_after_ten_witness :
    (∀ j, j < 10 → envDown.head "http://172.17.0.2:8080" j =
      .transportError ((fun n => "dial tcp: timeout #" ++ toString n) j)) ∧
    (checkHTTPConnectivity envDown "http://172.17.0.2:8080").1 =
      some ("failed after 10 attempts: " ++ (fun n => "dial tcp: timeout #" ++ toString n) 9) ∧
    (checkHTTPConnectivity envDown "http://172.17.0.2:8080").2 =
      failedAttempts "http://172.17.0.2:8080" 10 ∧
    headCount (checkHTTPConnectivity envDown "http://172.17.0.2:8080").2 = 10 :=
  ⟨fun _ _ => rfl,
    checkHTTPConnectivity_fails_after_ten envDown "http://172.17.0.2:8080"
      (fun n => "dial tcp: timeout #" ++ toString n) (fun _ _ => rfl)⟩

/-! ## Theorems: the command helpers -/

theorem containsChars_iff (b sub : List Char) :
    containsChars b sub = true ↔ ∃ l r : List Char, b = l ++ sub ++ r := by
  have key : containsChars b sub = true ↔ sub <:+: b := by
    induction b with
    | nil =>
      simp [containsChars, List.isEmpty_iff]
    | cons c cs ih =>
      simp only [containsChars, Bool.or_eq_true, ih, List.infix_cons_iff]
      simp
  rw [key]
  constructor
  · rintro ⟨l, r, h⟩
    exact ⟨l, r, h.symm⟩
  · rintro ⟨l, r, h⟩
    exact ⟨l, r, h.symm⟩

theorem Contains_iff (b : Bytes) (w : String) : Contains b w = true ↔ Occurs w b.str :=
  containsChars_iff b.str.data w.data

theorem Occurs_got (p b q w r : String) : Occurs b (p ++ b ++ q ++ w ++ r) :=
  ⟨p.data, q.data ++ w.data ++ r.data, by simp⟩

theorem Occurs_want (p b q w r : String) : Occurs w (p ++ b ++ q ++ w ++ r) :=
  ⟨p.data ++ b.data ++ q.data, r.data, by simp⟩

theorem execCheck_ok (env : Env) (containerID : String) (command : List String) (w : String)
    (b : Bytes) (h : env.cmd ("docker" :: "exec" :: containerID :: command) = ⟨b, none⟩) :
    checkDockerExecOutputContains env containerID command w =
      (if Contains b w then none
       else some ("Docker exec output: got '" ++ b.str ++ "', want '" ++ w ++ "'"),
       [Event.command ("docker" :: "exec" :: containerID :: command)]) := by
  simp only [checkDockerExecOutputContains, CombinedOutput, List.cons_append, List.nil_append, h]
  cases Contains b w <;> simp

theorem execCheck_err (env : Env) (containerID : String) (command : List String) (w : String)
    (b : Bytes) (e : String)
    (h : env.cmd ("docker" :: "exec" :: containerID :: command) = ⟨b, some e⟩) :
    checkDockerExecOutputContains env containerID command w =
      (some (e ++ ": " ++ b.str),
       [Event.command ("docker" :: "exec" :: containerID :: command)]) := by
  simp only [checkDockerExecOutputContains, CombinedOutput, List.cons_append, List.nil_append, h,
    wrapErr]

theorem runCheck_ok (env : Env) (imageName : String) (command : List String) (w : String)
    (b : Bytes) (h : env.cmd ("docker" :: "run" :: "--rm" :: imageName :: command) = ⟨b, none⟩) :
    checkDockerRunOutputContains env imageName command w =
      (if Contains b w then none
       else some ("Docker run output: got '" ++ b.str ++ "', want '" ++ w ++ "'"),
       [Event.command ("docker" :: "run" :: "--rm" :: imageName :: command)]) := by
  simp only [checkDockerRunOutputContains, CombinedOutput, List.cons_append, List.nil_append, h]
  cases Contains b w <;> simp

theorem runCheck_err (env : Env) (imageName : String) (command : List String) (w : String)
    (b : Bytes) (e : String)
    (h : env.cmd ("docker" :: "run" :: "--rm" :: imageName :: command) = ⟨b, some e⟩) :
    checkDockerRunOutputContains env imageName command w =
      (some (e ++ ": " ++ b.str),
       [Event.command ("docker" :: "run" :: "--rm" :: imageName :: command)]) := by
  simp only [checkDockerRunOutputContains, CombinedOutput, List.cons_append, List.nil_append, h,
    wrapErr]

/-- C4: when the command exits successfully with captured output `b`, each of
`checkDockerExecOutputContains` and `checkDockerRunOutputContains` returns nil
exactly when the expected string `w` occurs in `b` as a contiguous substring;
when `w` does not occur, the error is "Docker exec output: got 'b', want 'w'"
(respectively "Docker run output: ..."), a text in which both the whole of `b`
and `w` occur. -/
theorem outputContains_iff_occurs (env : Env) (imageName containerID : String)
    (command : List String) (w : String) :
    (∀ b : Bytes, env.cmd ("docker" :: "exec" :: containerID :: command) = ⟨b, none⟩ →
      ((checkDockerExecOutputContains env containerID command w).1 = none ↔ Occurs w b.str) ∧
      (¬ Occurs w b.str →
        (checkDockerExecOutputContains env containerID command w).1 =
          some ("Docker exec output: got '" ++ b.str ++ "', want '" ++ w ++ "'") ∧
        ∃ msg, (checkDockerExecOutputContains env containerID command w).1 = some msg ∧
          Occurs b.str msg ∧ Occurs w msg)) ∧
    (∀ b : Bytes, env.cmd ("docker" :: "run" :: "--rm" :: imageName :: command) = ⟨b, none⟩ →
      ((checkDockerRunOutputContains env imageName command w).1 = none ↔ Occurs w b.str) ∧
      (¬ Occurs w b.str →
        (checkDockerRunOutputContains env imageName command w).1 =
          some ("Docker run output: got '" ++ b.str ++ "', want '" ++ w ++ "'") ∧
        ∃ msg, (checkDockerRunOutputContains env imageName command w).1 = some msg ∧
          Occurs b.str msg ∧ Occurs w msg)) := by
  constructor
  · intro b h
    rw [execCheck_ok env containerID command w b h]
    by_cases hc : Contains b w = true
    · have ho := (Contains_iff b w).1 hc
      simp [hc, ho]
    · have ho : ¬ Occurs w b.str := fun ho => hc ((Contains_iff b w).2 ho)
      simp only [hc, ho, if_false, false_iff, not_false_eq_true, true_implies]
      exact ⟨by simp, rfl, _, rfl, Occurs_got _ _ _ _ _, Occurs_want _ _ _ _ _⟩
  · intro b h
    rw [runCheck_ok env imageName command w b h]
    by_cases hc : Contains b w = true
    · have ho := (Contains_iff b w).1 hc
      simp [hc, ho]
    · have ho : ¬ Occurs w b.str := fun ho => hc ((Contains_iff b w).2 ho)
      simp only [hc, ho, if_false, false_iff, not_false_eq_true, true_implies]
      exact ⟨by simp, rfl, _, rfl, Occurs_got _ _ _ _ _, Occurs_want _ _ _ _ _⟩

theorem outputContains_iff_occurs_witness :
    (checkDockerExecOutputContains envRuby "c1" ["bash", "-c", "ruby --version"]
      "ruby 2.0.0").1 = none ∧
    (checkDockerRunOutputContains envRuby "app-test" ["bash", "-c", "ruby --version"]
      "ruby 2.0.0").1 =
      some ("Docker run output: got '" ++ "ruby 1.8.7\n" ++ "', want '" ++ "ruby 2.0.0" ++ "'") :=
  have T := outputContains_iff_occurs envRuby "app-test" "c1" ["bash", "-c", "ruby --version"]
    "ruby 2.0.0"
  have hyes : Occurs "ruby 2.0.0" "ruby 2.0.0p0 (2013-02-24) [x86_64-linux]\n" :=
    ⟨[], "p0 (2013-02-24) [x86_64-linux]\n".data, by decide⟩
  have hno : ¬ Occurs "ruby 2.0.0" "ruby 1.8.7\n" := fun h =>
    absurd ((Contains_iff (some "ruby 1.8.7\n") "ruby 2.0.0").2 h) (by decide)
  ⟨((T.1 (some "ruby 2.0.0p0 (2013-02-24) [x86_64-linux]\n") (by decide)).1).2 hyes,
    ((T.2 (some "ruby 1.8.7\n") (by decide)).2 hno).1⟩

/-- What `TrimSpace` returns: the input is white space, then the result, then
white space, and the result neither starts nor ends with white space. -/
theorem TrimSpace_spec (s : String) :
    ∃ l r : List Char, s.data = l ++ (TrimSpace s).data ++ r ∧
      (∀ c ∈ l, isSpace c = true) ∧ (∀ c ∈ r, isSpace c = true) ∧
      (∀ c, (TrimSpace s).data.head? = some c → isSpace c = false) ∧
      (∀ c, (TrimSpace s).data.getLast? = some c → isSpace c = false) := by
  have hd : (s.data.dropWhile isSpace) =
      ((s.data.dropWhile isSpace).reverse.dropWhile isSpace).reverse ++
        ((s.data.dropWhile isSpace).reverse.takeWhile isSpace).reverse := by
    rw [← List.reverse_append, List.takeWhile_append_dropWhile, List.reverse_reverse]
  refine ⟨s.data.takeWhile isSpace,
    ((s.data.dropWhile isSpace).reverse.takeWhile isSpace).reverse, ?_, ?_, ?_, ?_, ?_⟩
  · show s.data = _ ++ ((s.data.dropWhile isSpace).reverse.dropWhile isSpace).reverse ++ _
    rw [List.append_assoc, ← hd, List.takeWhile_append_dropWhile]
  · intro c hc
    exact List.mem_takeWhile_imp hc
  · intro c hc
    exact List.mem_takeWhile_imp (List.mem_reverse.1 hc)
  · intro c hc
    have hc2 : (((s.data.dropWhile isSpace).reverse.dropWhile isSpace).reverse).head? = some c :=
      hc
    have h1 : (s.data.dropWhile isSpace).head? = some c := by
      rw [hd, List.head?_append, hc2]
      rfl
    have h2 := List.head?_dropWhile_not isSpace s.data
    rw [h1] at h2
    exact h2
  · intro c hc
    have hc2 : (((s.data.dropWhile isSpace).reverse.dropWhile isSpace).reverse).getLast? =
        some c := hc
    rw [List.getLast?_reverse] at hc2
    have h2 := List.head?_dropWhile_not isSpace (s.data.dropWhile isSpace).reverse
    rw [hc2] at h2
    exact h2

/-- C9: when the external command fails with error `e` and captured output
`b`, each of `runApp`, `stopTestApp`, `inspectContainerIP`,
`checkDockerExecOutputContains` and `checkDockerRunOutputContains` returns the
error "e: b", and `runApp` and `inspectContainerIP` return the empty string
with it; when the command succeeds with output `b`, `runApp` and
`inspectContainerIP` return `TrimSpace b` and no error, where `TrimSpace b` is
`b` without the white space at its two ends. -/
theorem failures_carry_output (env : Env) :
    (∀ (imageName : String) (b : Bytes) (e : String),
      env.cmd ["docker", "run", "--user=12345", "-p", "8080", "-d", imageName] = ⟨b, some e⟩ →
      (runApp env imageName).1 = ("", some (e ++ ": " ++ b.str))) ∧
    (∀ (containerID : String) (b : Bytes) (e : String),
      env.cmd ["docker", "rm", "-f", containerID] = ⟨b, some e⟩ →
      (stopTestApp env containerID).1 = some (e ++ ": " ++ b.str)) ∧
    (∀ (containerID : String) (b : Bytes) (e : String),
      env.cmd ["docker", "inspect", "--format='\x7b\x7b .NetworkSettings.IPAddress \x7d\x7d'",
        containerID] = ⟨b, some e⟩ →
      (inspectContainerIP env containerID).1 = ("", some (e ++ ": " ++ b.str))) ∧
    (∀ (containerID : String) (command : List String) (w : String) (b : Bytes) (e : String),
      env.cmd ("docker" :: "exec" :: containerID :: command) = ⟨b, some e⟩ →
      (checkDockerExecOutputContains env containerID command w).1 = some (e ++ ": " ++ b.str)) ∧
    (∀ (imageName : String) (command : List String) (w : String) (b : Bytes) (e : String),
      env.cmd ("docker" :: "run" :: "--rm" :: imageName :: command) = ⟨b, some e⟩ →
      (checkDockerRunOutputContains env imageName command w).1 = some (e ++ ": " ++ b.str)) ∧
    (∀ (imageName : String) (b : Bytes),
      env.cmd ["docker", "run", "--user=12345", "-p", "8080", "-d", imageName] = ⟨b, none⟩ →
      (runApp env imageName).1 = (TrimSpace b.str, none)) ∧
    (∀ (containerID : String) (b : Bytes),
      env.cmd ["docker", "inspect", "--format='\x7b\x7b .NetworkSettings.IPAddress \x7d\x7d'",
        containerID] = ⟨b, none⟩ →
      (inspectContainerIP env containerID).1 = (TrimSpace b.str, none)) ∧
    (∀ b : Bytes, ∃ l r : List Char, b.str.data = l ++ (TrimSpace b.str).data ++ r ∧
      (∀ c ∈ l, isSpace c = true) ∧ (∀ c ∈ r, isSpace c = true) ∧
      (∀ c, (TrimSpace b.str).data.head? = some c → isSpace c = false) ∧
      (∀ c, (TrimSpace b.str).data.getLast? = some c → isSpace c = false)) := by
  refine ⟨?_, ?_, ?_, ?_, ?_, ?_, ?_, ?_⟩
  · intro imageName b e h
    simp [runApp, CombinedOutput, h, wrapErr]
  · intro containerID b e h
    simp [stopTestApp, CombinedOutput, h, wrapErr]
  · intro containerID b e h
    simp [inspectContainerIP, CombinedOutput, h, wrapErr]
  · intro containerID command w b e h
    rw [execCheck_err env containerID command w b e h]
  · intro imageName command w b e h
    rw [runCheck_err env imageName command w b e h]
  · intro imageName b h
    simp [runApp, CombinedOutput, h]
  · intro containerID b h
    simp [inspectContainerIP, CombinedOutput, h]
  · intro b
    exact TrimSpace_spec b.str

theorem failures_carry_output_witness :
    (runApp envFailing "app-test").1 =
      ("", some ("exit status 1" ++ ": " ++ "Cannot connect to the Docker daemon.\n")) ∧
    (stopTestApp envFailing "c1").1 =
      some ("exit status 1" ++ ": " ++ "Cannot connect to the Docker daemon.\n") ∧
    (runApp envRuby "app-test").1 = (TrimSpace "ruby 1.8.7\n", none) ∧
    TrimSpace " \t8d2f1c0a9b7e\r\n" = "8d2f1c0a9b7e" :=
  have T := failures_carry_output envFailing
  have U := failures_carry_output envRuby
  ⟨T.1 "app-test" (some "Cannot connect to the Docker daemon.\n") "exit status 1" rfl,
    T.2.1 "c1" (some "Cannot connect to the Docker daemon.\n") "exit status 1" rfl,
    U.2.2.2.2.2.1 "app-test" (some "ruby 1.8.7\n") (by decide),
    by decide⟩

theorem execCheck_events (env : Env) (containerID : String) (command : List String)
    (w : String) :
    (checkDockerExecOutputContains env containerID command w).2 =
      [Event.command ("docker" :: "exec" :: containerID :: command)] := by
  simp only [checkDockerExecOutputContains, CombinedOutput, List.cons_append, List.nil_append]
  split
  · rfl
  · split <;> rfl

theorem runCheck_events (env : Env) (imageName : String) (command : List String)
    (w : String) :
    (checkDockerRunOutputContains env imageName command w).2 =
      [Event.command ("docker" :: "run" :: "--rm" :: imageName :: command)] := by
  simp only [checkDockerRunOutputContains, CombinedOutput, List.cons_append, List.nil_append]
  split
  · rfl
  · split <;> rfl

theorem execCheck_none_iff (env : Env) (containerID : String) (command : List String)
    (w : String) :
    (checkDockerExecOutputContains env containerID command w).1 = none ↔
      (env.cmd ("docker" :: "exec" :: containerID :: command)).err = none ∧
      Occurs w (env.cmd ("docker" :: "exec" :: containerID :: command)).out.str := by
  rcases h : env.cmd ("docker" :: "exec" :: containerID :: command) with ⟨b, _ | e⟩
  · rw [execCheck_ok env containerID command w b h, ← Contains_iff]
    by_cases hc : Contains b w = true <;> simp [hc]
  · rw [execCheck_err env containerID command w b e h]
    simp

theorem runCheck_none_iff (env : Env) (imageName : String) (command : List String)
    (w : String) :
    (checkDockerRunOutputContains env imageName command w).1 = none ↔
      (env.cmd ("docker" :: "run" :: "--rm" :: imageName :: command)).err = none ∧
      Occurs w (env.cmd ("docker" :: "run" :: "--rm" :: imageName :: command)).out.str := by
  rcases h : env.cmd ("docker" :: "run" :: "--rm" :: imageName :: command) with ⟨b, _ | e⟩
  · rw [runCheck_ok env imageName command w b h, ← Contains_iff]
    by_cases hc : Contains b w = true <;> simp [hc]
  · rw [runCheck_err env imageName command w b e h]
    simp

/-- The check returned by `CheckSCLEnabled`, in terms of its two parts. -/
theorem CheckSCLEnabled_eq (env : Env) (c w imageName containerID : String) :
    CheckSCLEnabled env c w imageName containerID =
      match (checkDockerExecOutputContains env containerID ["bash", "-c", c] w).1 with
      | some err => (some err, [Event.command ["docker", "exec", containerID, "bash", "-c", c]])
      | none => ((checkDockerRunOutputContains env imageName ["bash", "-c", c] w).1,
          [Event.command ["docker", "exec", containerID, "bash", "-c", c],
           Event.command ["docker", "run", "--rm", imageName, "bash", "-c", c]]) := by
  simp only [CheckSCLEnabled, execCheck_events, runCheck_events]
  split <;> simp_all

/-- C10 as amended: the check returned by `CheckSCLEnabled c w`, applied to
`imageName` and `containerID`, first runs `docker exec containerID bash -c c`;
if that exec check fails (which it does exactly when the process fails or `w`
does not occur in its output) it returns that failure and runs nothing else;
otherwise it runs `docker run --rm imageName bash -c c` and returns the result
of that check. It returns nil exactly when both commands exit successfully and
`w` occurs in both outputs, and `checkSCLEnabled` is
`CheckSCLEnabled "ruby --version" "ruby 2.0.0"`. -/
theorem CheckSCLEnabled_exec_then_run (env : Env) (c w imageName containerID : String) :
    (CheckSCLEnabled env c w imageName containerID).2.head? =
      some (Event.command ["docker", "exec", containerID, "bash", "-c", c]) ∧
    ((checkDockerExecOutputContains env containerID ["bash", "-c", c] w).1 = none ↔
      (env.cmd ["docker", "exec", containerID, "bash", "-c", c]).err = none ∧
      Occurs w (env.cmd ["docker", "exec", containerID, "bash", "-c", c]).out.str) ∧
    (∀ err, (checkDockerExecOutputContains env containerID ["bash", "-c", c] w).1 = some err →
      CheckSCLEnabled env c w imageName containerID =
        (some err, [Event.command ["docker", "exec", containerID, "bash", "-c", c]])) ∧
    ((checkDockerExecOutputContains env containerID ["bash", "-c", c] w).1 = none →
      CheckSCLEnabled env c w imageName containerID =
        ((checkDockerRunOutputContains env imageName ["bash", "-c", c] w).1,
          [Event.command ["docker", "exec", containerID, "bash", "-c", c],
           Event.command ["docker", "run", "--rm", imageName, "bash", "-c", c]])) ∧
    ((CheckSCLEnabled env c w imageName containerID).1 = none ↔
      ((env.cmd ["docker", "exec", containerID, "bash", "-c", c]).err = none ∧
        Occurs w (env.cmd ["docker", "exec", containerID, "bash", "-c", c]).out.str) ∧
      ((env.cmd ["docker", "run", "--rm", imageName, "bash", "-c", c]).err = none ∧
        Occurs w (env.cmd ["docker", "run", "--rm", imageName, "bash", "-c", c]).out.str)) ∧
    checkSCLEnabled env imageName containerID =
      CheckSCLEnabled env "ruby --version" "ruby 2.0.0" imageName containerID := by
  have hE := execCheck_none_iff env containerID ["bash", "-c", c] w
  have hR := runCheck_none_iff env imageName ["bash", "-c", c] w
  refine ⟨?_, hE, ?_, ?_, ?_, rfl⟩
  · rw [CheckSCLEnabled_eq]
    split <;> rfl
  · intro err h
    rw [CheckSCLEnabled_eq, h]
  · intro h
    rw [CheckSCLEnabled_eq, h]
  · rw [← hE, ← hR, CheckSCLEnabled_eq]
    cases h : (checkDockerExecOutputContains env containerID ["bash", "-c", c] w).1 <;> simp

/-- C10 fails as stated: `docker exec c1 bash -c "ruby --version"` prints
"ruby 2.0.0p0\n" and exits with status 1, and the fresh run prints the same and
succeeds. The expected string "ruby 2.0.0" occurs in both outputs, yet the check
fails with "exit status 1: ruby 2.0.0p0\n", after the exec command alone: the
process error is returned before the output is searched. -/
theorem CheckSCLEnabled_fails_with_w_in_both_outputs :
    Occurs "ruby 2.0.0"
      (envExecExit1.cmd ["docker", "exec", "c1", "bash", "-c", "ruby --version"]).out.str ∧
    Occurs "ruby 2.0.0"
      (envExecExit1.cmd
        ["docker", "run", "--rm", "app-test", "bash", "-c", "ruby --version"]).out.str ∧
    CheckSCLEnabled envExecExit1 "ruby --version" "ruby 2.0.0" "app-test" "c1" =
      (some "exit status 1: ruby 2.0.0p0\n",
        [Event.command ["docker", "exec", "c1", "bash", "-c", "ruby --version"]]) ∧
    ¬ ((CheckSCLEnabled envExecExit1 "ruby --version" "ruby 2.0.0" "app-test" "c1").1 = none ↔
      Occurs "ruby 2.0.0"
        (envExecExit1.cmd ["docker", "exec", "c1", "bash", "-c", "ruby --version"]).out.str ∧
      Occurs "ruby 2.0.0"
        (envExecExit1.cmd
          ["docker", "run", "--rm", "app-test", "bash", "-c", "ruby --version"]).out.str) := by
  have h1 : Occurs "ruby 2.0.0"
      (envExecExit1.cmd ["docker", "exec", "c1", "bash", "-c", "ruby --version"]).out.str :=
    ⟨[], "p0\n".data, by decide⟩
  have h2 : Occurs "ruby 2.0.0"
      (envExecExit1.cmd
        ["docker", "run", "--rm", "app-test", "bash", "-c", "ruby --version"]).out.str :=
    ⟨[], "p0\n".data, by decide⟩
  have h3 : CheckSCLEnabled envExecExit1 "ruby --version" "ruby 2.0.0" "app-test" "c1" =
      (some "exit status 1: ruby 2.0.0p0\n",
        [Event.command ["docker", "exec", "c1", "bash", "-c", "ruby --version"]]) := by
    decide
  refine ⟨h1, h2, h3, ?_⟩
  intro hiff
  have hnone := hiff.2 ⟨h1, h2⟩
  rw [h3] at hnone
  cases hnone

/-! ## Theorems: testInParallel -/

theorem set_split {α : Type} (l : List α) (i : Nat) (a b : α) (h : l[i]? = some a) :
    ∃ p q, l = p ++ a :: q ∧ l.set i b = p ++ b :: q ∧ p.length = i := by
  induction l generalizing i with
  | nil => simp at h
  | cons x xs ih =>
    cases i with
    | zero =>
      simp at h
      exact ⟨[], xs, by simp [h], by simp, rfl⟩
    | succ i =>
      simp at h
      obtain ⟨p, q, h1, h2, h3⟩ := ih i h
      exact ⟨x :: p, q, by simp [h1], by simp [h2], by simp [h3]⟩

theorem resultAt_append_ready (gs : List G) (i : Nat) :
    resultAt (gs ++ [G.ready]) i = resultAt gs i := by
  unfold resultAt
  rcases Nat.lt_trichotomy i gs.length with h | h | h
  · rw [List.getElem?_append_left h]
  · subst h
    rw [List.getElem?_concat_length, List.getElem?_eq_none (Nat.le_refl _)]
    rfl
  · rw [List.getElem?_eq_none (by simp; omega), List.getElem?_eq_none (by omega)]

theorem resultAt_set (gs : List G) (i j : Nat) (g g2 : G) (h : gs[i]? = some g) :
    resultAt (gs.set i g2) j = if i = j then g2.result else resultAt gs j := by
  unfold resultAt
  have hlt : i < gs.length := by
    rcases List.getElem?_eq_some.1 h with ⟨hlt, _⟩
    exact hlt
  rw [List.getElem?_set]
  by_cases hij : i = j
  · subst hij
    simp [hlt]
  · simp [hij]

theorem eventsOfCalls_append (fs : List Check) (a b : List Nat) :
    eventsOfCalls fs (a ++ b) = eventsOfCalls fs a ++ eventsOfCalls fs b := by
  induction a with
  | nil => simp [eventsOfCalls]
  | cons i is ih => simp [eventsOfCalls, ih]

theorem Inv_init (fs : List Check) (t0 : T) : Inv fs t0 (PState.init t0) where
  len := by simp [PState.init]
  wg_eq := by simp [PState.init]
  ret := by simp [PState.init]
  log := ⟨[], by simp [PState.init]⟩
  failed := by simp [PState.init]
  calls := by simp [PState.init, resultAt]
  res := by simp [PState.init, resultAt]
  trace := by simp [PState.init, eventsOfCalls]

theorem countP_pending_set (gs : List G) (i : Nat) (g g2 : G) (h : gs[i]? = some g) :
    (gs.set i g2).countP G.pending + (if g.pending then 1 else 0) =
      gs.countP G.pending + (if g2.pending then 1 else 0) := by
  obtain ⟨p, q, h1, h2, _⟩ := set_split gs i g g2 h
  rw [h2]
  conv_rhs => rw [h1]
  simp only [List.countP_append, List.countP_cons]
  omega

theorem filterMap_logged_set (gs : List G) (i : Nat) (g g2 : G) (h : gs[i]? = some g)
    (hg : g.logged = none) :
    ((gs.set i g2).filterMap G.logged).Perm (gs.filterMap G.logged ++ g2.logged.toList) := by
  obtain ⟨p, q, h1, h2, _⟩ := set_split gs i g g2 h
  rw [h2]
  conv_rhs => rw [h1]
  simp only [List.filterMap_append, List.filterMap_cons, hg]
  cases g2.logged with
  | none => simp
  | some e =>
    simp only [Option.toList_some, List.append_assoc]
    refine List.Perm.append_left _ ?_
    simpa using (List.perm_append_comm : ([e] ++ List.filterMap G.logged q).Perm _)

theorem filterMap_logged_set_same (gs : List G) (i : Nat) (g g2 : G) (h : gs[i]? = some g)
    (hg : g.logged = g2.logged) :
    (gs.set i g2).filterMap G.logged = gs.filterMap G.logged := by
  obtain ⟨p, q, h1, h2, _⟩ := set_split gs i g g2 h
  rw [h2]
  conv_rhs => rw [h1]
  simp only [List.filterMap_append, List.filterMap_cons, hg]

theorem any_logged_set (gs : List G) (i : Nat) (g g2 : G) (h : gs[i]? = some g)
    (hg : g.logged = none) :
    ((gs.set i g2).any fun g => g.logged.isSome) =
      ((gs.any fun g => g.logged.isSome) || g2.logged.isSome) := by
  obtain ⟨p, q, h1, h2, _⟩ := set_split gs i g g2 h
  rw [h2]
  conv_rhs => rw [h1]
  simp only [List.any_append, List.any_cons, hg, Option.isSome_none, Bool.false_or]
  cases (p.any fun g => g.logged.isSome) <;> cases (q.any fun g => g.logged.isSome) <;>
    cases g2.logged.isSome <;> rfl

theorem any_logged_set_same (gs : List G) (i : Nat) (g g2 : G) (h : gs[i]? = some g)
    (hg : g.logged = g2.logged) :
    ((gs.set i g2).any fun g => g.logged.isSome) = (gs.any fun g => g.logged.isSome) := by
  obtain ⟨p, q, h1, h2, _⟩ := set_split gs i g g2 h
  rw [h2]
  conv_rhs => rw [h1]
  simp only [List.any_append, List.any_cons, hg]

theorem resultAt_of_get (gs : List G) (i : Nat) (g : G) (h : gs[i]? = some g) :
    resultAt gs i = g.result := by
  simp [resultAt, h]

theorem eventsOfCalls_single (fs : List Check) (i : Nat) (f : Check) (h : fs[i]? = some f) :
    eventsOfCalls fs [i] = (f ()).events := by
  simp [eventsOfCalls, h]

theorem count_calls_append (calls : List Nat) (i j : Nat) :
    (calls ++ [i]).count j = calls.count j + if i = j then 1 else 0 := by
  rw [List.count_append, List.count_singleton]
  by_cases h : i = j
  · subst h; simp
  · have h2 : ¬ j = i := fun e => h e.symm
    simp [h, h2]

/-- The main goroutine runs one iteration of the loop. -/
theorem Inv_spawn (fs : List Check) (t0 : T) (s : PState) (h : Inv fs t0 s)
    (hlt : s.gs.length < fs.length) :
    Inv fs t0 { s with gs := s.gs ++ [G.ready], wg := s.wg + 1 } where
  len := by simp; omega
  wg_eq := by simp [List.countP_append, List.countP_cons, G.pending, h.wg_eq]
  ret := by
    intro hr
    have := (h.ret hr).1
    omega
  log := by
    obtain ⟨entries, h1, h2⟩ := h.log
    exact ⟨entries, h1, by simpa [List.filterMap_append, G.logged] using h2⟩
  failed := by simp [List.any_append, G.logged, h.failed]
  calls := by
    intro i
    simp only [resultAt_append_ready]
    exact h.calls i
  res := by
    intro i o
    simp only [resultAt_append_ready]
    exact h.res i o
  trace := h.trace

/-- The main goroutine returns from `wg.Wait()`. -/
theorem Inv_wait (fs : List Check) (t0 : T) (s : PState) (h : Inv fs t0 s)
    (hlen : ¬ s.gs.length < fs.length) (hwg : s.wg = 0) :
    Inv fs t0 { s with returned := true } where
  len := h.len
  wg_eq := h.wg_eq
  ret := fun _ => ⟨Nat.le_antisymm h.len (Nat.le_of_not_lt hlen), hwg⟩
  log := h.log
  failed := h.failed
  calls := h.calls
  res := h.res
  trace := h.trace

/-- A goroutine calls its check, which returns. -/
theorem Inv_call_ret (fs : List Check) (t0 : T) (s : PState) (h : Inv fs t0 s) (i : Nat)
    (f : Check) (err : Option String) (hg : s.gs[i]? = some G.ready) (hf : fs[i]? = some f)
    (ho : (f ()).outcome = .ret err) :
    Inv fs t0 { s with
      gs := s.gs.set i (G.called err)
      trace := s.trace ++ (f ()).events
      calls := s.calls ++ [i] } where
  len := by simpa using h.len
  wg_eq := by
    have := countP_pending_set s.gs i _ (G.called err) hg
    simp only [G.pending] at this
    have := h.wg_eq
    simp only
    omega
  ret := by
    intro hr
    simpa using h.ret hr
  log := by
    obtain ⟨entries, h1, h2⟩ := h.log
    refine ⟨entries, h1, h2.trans ?_⟩
    simpa [G.logged] using (filterMap_logged_set s.gs i _ (G.called err) hg rfl).symm
  failed := by
    simp only
    rw [any_logged_set s.gs i _ (G.called err) hg rfl, h.failed]
    simp [G.logged]
  calls := by
    intro j
    simp only [resultAt_set s.gs i j _ (G.called err) hg, count_calls_append, h.calls j]
    by_cases hij : i = j
    · subst hij
      simp [resultAt_of_get s.gs i _ hg, G.result]
    · simp [hij]
  res := by
    intro j o
    simp only [resultAt_set s.gs i j _ (G.called err) hg]
    by_cases hij : i = j
    · subst hij
      simp only [if_true, G.result, Option.some.injEq]
      intro e
      exact ⟨f, hf, by rw [ho, e]⟩
    · simp only [hij, if_false]
      exact h.res j o
  trace := by
    simp only [eventsOfCalls_append, eventsOfCalls_single fs i f hf, h.trace]

/-- A goroutine calls its check, which ends in `t.Fatal`. -/
theorem Inv_call_goexit (fs : List Check) (t0 : T) (s : PState) (h : Inv fs t0 s) (i : Nat)
    (f : Check) (msg : String) (hg : s.gs[i]? = some G.ready) (hf : fs[i]? = some f)
    (ho : (f ()).outcome = .goexit msg) :
    Inv fs t0 { s with
      gs := s.gs.set i (G.dead msg)
      t := s.t.Fatal msg
      trace := s.trace ++ (f ()).events
      calls := s.calls ++ [i] } where
  len := by simpa using h.len
  wg_eq := by
    have := countP_pending_set s.gs i _ (G.dead msg) hg
    simp only [G.pending] at this
    have := h.wg_eq
    simp only
    omega
  ret := by
    intro hr
    simpa using h.ret hr
  log := by
    obtain ⟨entries, h1, h2⟩ := h.log
    refine ⟨entries ++ [msg], by simp [T.Fatal, h1], ?_⟩
    refine (List.Perm.append_right [msg] h2).trans ?_
    simpa [G.logged] using (filterMap_logged_set s.gs i _ (G.dead msg) hg rfl).symm
  failed := by
    simp only
    rw [any_logged_set s.gs i _ (G.dead msg) hg rfl]
    simp [G.logged, T.Fatal]
  calls := by
    intro j
    simp only [resultAt_set s.gs i j _ (G.dead msg) hg, count_calls_append, h.calls j]
    by_cases hij : i = j
    · subst hij
      simp [resultAt_of_get s.gs i _ hg, G.result]
    · simp [hij]
  res := by
    intro j o
    simp only [resultAt_set s.gs i j _ (G.dead msg) hg]
    by_cases hij : i = j
    · subst hij
      simp only [if_true, G.result, Option.some.injEq]
      intro e
      exact ⟨f, hf, by rw [ho, e]⟩
    · simp only [hij, if_false]
      exact h.res j o
  trace := by
    simp only [eventsOfCalls_append, eventsOfCalls_single fs i f hf, h.trace]

/-- A goroutine runs `if err != nil { t.Error(err) }`. -/
theorem Inv_report (fs : List Check) (t0 : T) (s : PState) (h : Inv fs t0 s) (i : Nat)
    (err : Option String) (hg : s.gs[i]? = some (G.called err)) :
    Inv fs t0 { s with gs := s.gs.set i (G.reported err), t := s.t.report err } where
  len := by simpa using h.len
  wg_eq := by
    have := countP_pending_set s.gs i _ (G.reported err) hg
    simp only [G.pending] at this
    have := h.wg_eq
    simp only
    omega
  ret := by
    intro hr
    simpa using h.ret hr
  log := by
    obtain ⟨entries, h1, h2⟩ := h.log
    have hp := (filterMap_logged_set s.gs i _ (G.reported err) hg rfl).symm
    cases err with
    | none => exact ⟨entries, h1, h2.trans (by simpa [G.logged] using hp)⟩
    | some e =>
      refine ⟨entries ++ [e], by simp [T.report, T.Error, h1], ?_⟩
      exact (List.Perm.append_right [e] h2).trans (by simpa [G.logged] using hp)
  failed := by
    simp only
    rw [any_logged_set s.gs i _ (G.reported err) hg rfl]
    cases err with
    | none => simp [G.logged, T.report, h.failed]
    | some e => simp [G.logged, T.report, T.Error]
  calls := by
    intro j
    simp only [resultAt_set s.gs i j _ (G.reported err) hg, h.calls j]
    by_cases hij : i = j
    · subst hij
      simp [resultAt_of_get s.gs i _ hg, G.result]
    · simp [hij]
  res := by
    intro j o
    simp only [resultAt_set s.gs i j _ (G.reported err) hg]
    by_cases hij : i = j
    · subst hij
      simp only [if_true]
      intro e
      exact h.res i o (by rw [resultAt_of_get s.gs i _ hg]; exact e)
    · simp only [hij, if_false]
      exact h.res j o
  trace := h.trace

/-- A goroutine calls `wg.Done()`. -/
theorem Inv_done (fs : List Check) (t0 : T) (s : PState) (h : Inv fs t0 s) (i : Nat)
    (err : Option String) (hg : s.gs[i]? = some (G.reported err)) :
    Inv fs t0 { s with gs := s.gs.set i (G.done err), wg := s.wg - 1 } where
  len := by simpa using h.len
  wg_eq := by
    have := countP_pending_set s.gs i _ (G.done err) hg
    simp [G.pending] at this
    have := h.wg_eq
    simp only
    omega
  ret := by
    intro hr
    have := h.ret hr
    simp only [List.length_set]
    omega
  log := by
    obtain ⟨entries, h1, h2⟩ := h.log
    refine ⟨entries, h1, ?_⟩
    simp only
    rw [filterMap_logged_set_same s.gs i _ (G.done err) hg rfl]
    exact h2
  failed := by
    simp only
    rw [any_logged_set_same s.gs i _ (G.done err) hg rfl]
    exact h.failed
  calls := by
    intro j
    simp only [resultAt_set s.gs i j _ (G.done err) hg, h.calls j]
    by_cases hij : i = j
    · subst hij
      simp [resultAt_of_get s.gs i _ hg, G.result]
    · simp [hij]
  res := by
    intro j o
    simp only [resultAt_set s.gs i j _ (G.done err) hg]
    by_cases hij : i = j
    · subst hij
      simp only [if_true]
      intro e
      exact h.res i o (by rw [resultAt_of_get s.gs i _ hg]; exact e)
    · simp only [hij, if_false]
      exact h.res j o
  trace := h.trace

/-- Every step keeps the invariant. -/
theorem Inv_step (fs : List Check) (t0 : T) (s s2 : PState) (a : Action) (h : Inv fs t0 s)
    (hs : step fs s a = some s2) : Inv fs t0 s2 := by
  cases a with
  | main =>
    simp only [step] at hs
    split_ifs at hs with h1 h2
    · cases hs
      exact Inv_spawn fs t0 s h h1
    · cases hs
      exact Inv_wait fs t0 s h h1 h2.1
  | go i =>
    simp only [step] at hs
    split at hs
    · rename_i f hg hf
      split at hs
      · rename_i err ho
        cases hs
        exact Inv_call_ret fs t0 s h i f err hg hf ho
      · rename_i msg ho
        cases hs
        exact Inv_call_goexit fs t0 s h i f msg hg hf ho
    · rename_i err hg
      cases hs
      exact Inv_report fs t0 s h i err hg
    · rename_i err hg
      cases hs
      exact Inv_done fs t0 s h i err hg
    · cases hs

/-- Every state a schedule reaches satisfies the invariant. -/
theorem Inv_run (fs : List Check) (t0 : T) (sched : List Action) :
    ∀ s, Inv fs t0 s → Inv fs t0 (run fs sched s) := by
  induction sched with
  | nil => intro s h; exact h
  | cons a as ih =>
    intro s h
    show Inv fs t0 (run fs as ((step fs s a).getD s))
    apply ih
    cases hs : step fs s a with
    | none => exact h
    | some s2 => exact Inv_step fs t0 s s2 a h hs

theorem Inv_testInParallel (fs : List Check) (t0 : T) (sched : List Action) :
    Inv fs t0 (testInParallel t0 fs sched) :=
  Inv_run fs t0 sched _ (Inv_init fs t0)

/-- In a state where `testInParallel` has returned, every goroutine is past
`wg.Done()`. -/
theorem returned_all_done (fs : List Check) (t0 : T) (s : PState) (h : Inv fs t0 s)
    (hr : s.returned = true) : ∀ g ∈ s.gs, ∃ e, g = G.done e := by
  have h0 : s.gs.countP G.pending = 0 := by
    rw [← h.wg_eq]
    exact (h.ret hr).2
  rw [List.countP_eq_zero] at h0
  intro g hg
  have := h0 g hg
  cases g with
  | done e => exact ⟨e, rfl⟩
  | ready => simp [G.pending] at this
  | called e => simp [G.pending] at this
  | reported e => simp [G.pending] at this
  | dead m => simp [G.pending] at this

/-- In a state where `testInParallel` has returned, the goroutine of every
check is past `wg.Done()` and holds the error that its check returned. -/
theorem returned_get (fs : List Check) (t0 : T) (s : PState) (h : Inv fs t0 s)
    (hr : s.returned = true) (i : Nat) (hi : i < fs.length) :
    ∃ e f, s.gs[i]? = some (G.done e) ∧ fs[i]? = some f ∧ (f ()).outcome = .ret e := by
  have hlen := (h.ret hr).1
  have hi2 : i < s.gs.length := by omega
  obtain ⟨e, he⟩ := returned_all_done fs t0 s h hr _ (List.getElem_mem hi2)
  have hg : s.gs[i]? = some (G.done e) := by
    rw [List.getElem?_eq_getElem hi2, he]
  obtain ⟨f, hf, ho⟩ := h.res i (.ret e) (by rw [resultAt_of_get s.gs i _ hg]; rfl)
  exact ⟨e, f, hg, hf, ho⟩

theorem returned_all_ret (fs : List Check) (t0 : T) (s : PState) (h : Inv fs t0 s)
    (hr : s.returned = true) : ∀ f ∈ fs, ∃ e, (f ()).outcome = .ret e := by
  intro f hf
  obtain ⟨i, hi, hfi⟩ := List.getElem_of_mem hf
  obtain ⟨e, f2, _, hf2, ho⟩ := returned_get fs t0 s h hr i hi
  rw [List.getElem?_eq_getElem hi, hfi] at hf2
  cases hf2
  exact ⟨e, ho⟩

theorem returned_calls (fs : List Check) (t0 : T) (s : PState) (h : Inv fs t0 s)
    (hr : s.returned = true) (i : Nat) :
    s.calls.count i = if i < fs.length then 1 else 0 := by
  rw [h.calls i]
  by_cases hi : i < fs.length
  · obtain ⟨e, f, hg, _, _⟩ := returned_get fs t0 s h hr i hi
    simp [resultAt_of_get s.gs i _ hg, G.result, hi]
  · have hlen := (h.ret hr).1
    have : s.gs[i]? = none := List.getElem?_eq_none (by omega)
    simp [resultAt, this, hi]

theorem returned_logged (fs : List Check) (t0 : T) (s : PState) (h : Inv fs t0 s)
    (hr : s.returned = true) : s.gs.filterMap G.logged = fs.filterMap Check.err := by
  have hmap : s.gs.map G.logged = fs.map Check.err := by
    apply List.ext_getElem?
    intro i
    rw [List.getElem?_map, List.getElem?_map]
    by_cases hi : i < fs.length
    · obtain ⟨e, f, hg, hf, ho⟩ := returned_get fs t0 s h hr i hi
      simp [hg, hf, G.logged, Check.err, ho]
    · have hlen := (h.ret hr).1
      rw [List.getElem?_eq_none (by omega), List.getElem?_eq_none (by omega)]
      rfl
  have e1 : s.gs.filterMap G.logged = (s.gs.map G.logged).filterMap id := by
    rw [List.filterMap_map]; rfl
  have e2 : fs.filterMap Check.err = (fs.map Check.err).filterMap id := by
    rw [List.filterMap_map]; rfl
  rw [e1, e2, hmap]

theorem calls_perm_range (n : Nat) (calls : List Nat)
    (h : ∀ i, calls.count i = if i < n then 1 else 0) : calls.Perm (List.range n) := by
  rw [List.perm_iff_count]
  intro i
  rw [h i, List.count_eq_of_nodup (List.nodup_range n)]
  simp

theorem sum_stepsLeft_set (gs : List G) (i : Nat) (g g2 : G) (h : gs[i]? = some g) :
    ((gs.set i g2).map G.stepsLeft).sum + g.stepsLeft =
      (gs.map G.stepsLeft).sum + g2.stepsLeft := by
  obtain ⟨p, q, h1, h2, _⟩ := set_split gs i g g2 h
  rw [h2]
  conv_rhs => rw [h1]
  simp only [List.map_append, List.map_cons, List.sum_append, List.sum_cons]
  omega

/-- While `testInParallel` has not returned and no check ends in `t.Fatal`,
some goroutine can move. -/
theorem exists_step (fs : List Check) (t0 : T) (s : PState) (h : Inv fs t0 s)
    (hret : ∀ f ∈ fs, ∃ e, (f ()).outcome = .ret e) (hr : s.returned = false) :
    ∃ a s2, step fs s a = some s2 := by
  suffices hsome : ∃ a, (step fs s a).isSome = true by
    obtain ⟨a, ha⟩ := hsome
    exact ⟨a, Option.isSome_iff_exists.1 ha⟩
  by_cases h1 : s.gs.length < fs.length
  · exact ⟨.main, by simp [step, h1]⟩
  by_cases h2 : s.wg = 0
  · exact ⟨.main, by simp [step, h1, h2, hr]⟩
  have hpos : 0 < s.gs.countP G.pending := by
    rw [← h.wg_eq]
    omega
  obtain ⟨g, hg, hp⟩ := List.countP_pos_iff.1 hpos
  obtain ⟨i, hi, hgi⟩ := List.getElem_of_mem hg
  have hget : s.gs[i]? = some g := by rw [List.getElem?_eq_getElem hi, hgi]
  have hif : i < fs.length := Nat.lt_of_lt_of_le hi h.len
  have hf : fs[i]? = some fs[i] := List.getElem?_eq_getElem hif
  cases g with
  | ready =>
    obtain ⟨e, he⟩ := hret fs[i] (List.getElem_mem hif)
    exact ⟨.go i, by simp [step, hget, hf, he]⟩
  | called e => exact ⟨.go i, by simp [step, hget]⟩
  | reported e => exact ⟨.go i, by simp [step, hget]⟩
  | done e => simp [G.pending] at hp
  | dead m =>
    obtain ⟨f, hf2, ho⟩ := h.res i (.goexit m) (by rw [resultAt_of_get s.gs i _ hget]; rfl)
    obtain ⟨hlt, hfe⟩ := List.getElem?_eq_some.1 hf2
    obtain ⟨e, he⟩ := hret f (hfe ▸ List.getElem_mem hlt)
    rw [he] at ho
    cases ho

/-- Every step brings the return of `testInParallel` nearer. -/
theorem step_decreases (fs : List Check) (s s2 : PState) (a : Action)
    (hs : step fs s a = some s2) :
    stepsToReturn fs s2 < stepsToReturn fs s := by
  cases a with
  | main =>
    simp only [step] at hs
    split_ifs at hs with h1 h2
    · cases hs
      simp [stepsToReturn, G.stepsLeft]
      omega
    · cases hs
      simp [stepsToReturn, h2.2]
  | go i =>
    simp only [step] at hs
    split at hs
    · rename_i f hg hf
      split at hs
      · rename_i err ho
        cases hs
        have := sum_stepsLeft_set s.gs i _ (G.called err) hg
        simp [stepsToReturn, G.stepsLeft] at this ⊢
        omega
      · rename_i msg ho
        cases hs
        have := sum_stepsLeft_set s.gs i _ (G.dead msg) hg
        simp [stepsToReturn, G.stepsLeft] at this ⊢
        omega
    · rename_i err hg
      cases hs
      have := sum_stepsLeft_set s.gs i _ (G.reported err) hg
      simp [stepsToReturn, G.stepsLeft] at this ⊢
      omega
    · rename_i err hg
      cases hs
      have := sum_stepsLeft_set s.gs i _ (G.done err) hg
      simp [stepsToReturn, G.stepsLeft] at this ⊢
      omega
    · cases hs

/-- When no check ends in `t.Fatal`, some schedule takes any reachable state to
the return of `testInParallel`. -/
theorem exists_schedule (fs : List Check) (t0 : T)
    (hret : ∀ f ∈ fs, ∃ e, (f ()).outcome = .ret e) :
    ∀ (n : Nat) (s : PState), Inv fs t0 s → stepsToReturn fs s ≤ n →
      ∃ sched, (run fs sched s).returned = true := by
  intro n
  induction n with
  | zero =>
    intro s _ hn
    refine ⟨[], ?_⟩
    cases hr : s.returned with
    | true => simpa [run] using hr
    | false => simp [stepsToReturn, hr] at hn
  | succ n ih =>
    intro s h hn
    cases hr : s.returned with
    | true => exact ⟨[], by simpa [run] using hr⟩
    | false =>
      obtain ⟨a, s2, hs⟩ := exists_step fs t0 s h hret hr
      have hd := step_decreases fs s s2 a hs
      obtain ⟨sched, hsched⟩ := ih s2 (Inv_step fs t0 s s2 a h hs) (by omega)
      refine ⟨a :: sched, ?_⟩
      show (run fs sched ((step fs s a).getD s)).returned = true
      rw [hs]
      exact hsched

theorem length_filterMap_err (fs : List Check) :
    (fs.filterMap Check.err).length = fs.countP fun f => f.err.isSome := by
  induction fs with
  | nil => rfl
  | cons f fs ih =>
    cases h : f.err with
    | none => simp [List.filterMap_cons, List.countP_cons, h, ih]
    | some e => simp [List.filterMap_cons, List.countP_cons, h, ih]

theorem any_logged_eq (gs : List G) (fs : List Check)
    (h : gs.filterMap G.logged = fs.filterMap Check.err) :
    (gs.any fun g => g.logged.isSome) = fs.any fun f => f.err.isSome := by
  have key : ∀ {α : Type} (l : List α) (f : α → Option String),
      (l.any fun x => (f x).isSome) = !(l.filterMap f).isEmpty := by
    intro α l f
    induction l with
    | nil => rfl
    | cons x xs ih =>
      cases hx : f x with
      | none => simp [List.filterMap_cons, hx, ih]
      | some e => simp [List.filterMap_cons, hx]
  rw [key gs G.logged, key fs Check.err, h]

/-- C5: for every list `fs` of checks each of which returns (nil or an error),
whatever the order in which the goroutines run (every schedule): no check is
ever called twice; as long as `testInParallel` has not returned some goroutine
can move, and some schedule makes it return; and in every state in which it has
returned, every goroutine has run to its end past `wg.Done()`, every check has
been called exactly once (the calls are a permutation of `0..N-1`), and the
entries added to the log of `t` are, in some order, exactly the errors returned
by the failing checks, one entry per failing check, so their number is the
number of failing checks, and `t` is marked failed exactly if it was before or
some check failed. -/
theorem testInParallel_records_every_failure (t0 : T) (fs : List Check)
    (hret : ∀ f ∈ fs, ∃ e, (f ()).outcome = .ret e) :
    (∃ sched, (testInParallel t0 fs sched).returned = true) ∧
    ∀ sched,
      (∀ i, (testInParallel t0 fs sched).calls.count i ≤ 1) ∧
      ((testInParallel t0 fs sched).returned = false →
        ∃ a s2, step fs (testInParallel t0 fs sched) a = some s2) ∧
      ((testInParallel t0 fs sched).returned = true →
        (testInParallel t0 fs sched).gs.length = fs.length ∧
        (∀ g ∈ (testInParallel t0 fs sched).gs, ∃ e, g = G.done e) ∧
        (testInParallel t0 fs sched).calls.Perm (List.range fs.length) ∧
        (∃ entries, (testInParallel t0 fs sched).t.log = t0.log ++ entries ∧
          entries.Perm (fs.filterMap Check.err) ∧
          entries.length = fs.countP fun f => f.err.isSome) ∧
        (testInParallel t0 fs sched).t.failed =
          (t0.failed || fs.any fun f => f.err.isSome)) := by
  refine ⟨exists_schedule fs t0 hret _ _ (Inv_init fs t0) (Nat.le_refl _), ?_⟩
  intro sched
  have h := Inv_testInParallel fs t0 sched
  refine ⟨?_, exists_step fs t0 _ h hret, ?_⟩
  · intro i
    rw [h.calls i]
    split <;> omega
  · intro hr
    have hl := returned_logged fs t0 _ h hr
    refine ⟨(h.ret hr).1, returned_all_done fs t0 _ h hr,
      calls_perm_range _ _ (returned_calls fs t0 _ h hr), ?_, ?_⟩
    · obtain ⟨entries, h1, h2⟩ := h.log
      rw [hl] at h2
      exact ⟨entries, h1, h2, by rw [h2.length_eq, length_filterMap_err]⟩
    · rw [h.failed, any_logged_eq _ _ hl]

theorem testInParallel_records_every_failure_witness :
    (∀ f ∈ checks3, ∃ e, (f ()).outcome = .ret e) ∧
    (∃ sched, (testInParallel ⟨false, []⟩ checks3 sched).returned = true) ∧
    (testInParallel ⟨false, []⟩ checks3
      [.main, .go 0, .main, .main, .go 2, .go 2, .go 1, .go 0, .go 1, .go 2,
        .go 1, .go 0, .main]).returned = true ∧
    (∃ entries,
      (testInParallel ⟨false, []⟩ checks3
        [.main, .go 0, .main, .main, .go 2, .go 2, .go 1, .go 0, .go 1, .go 2,
          .go 1, .go 0, .main]).t.log = [] ++ entries ∧
      entries.Perm (checks3.filterMap Check.err) ∧
      entries.length = checks3.countP fun f => f.err.isSome) :=
  have h : ∀ f ∈ checks3, ∃ e, (f ()).outcome = .ret e := by
    intro f hf
    simp only [checks3, List.mem_cons, List.mem_singleton, List.not_mem_nil, or_false] at hf
    rcases hf with rfl | rfl | rfl <;> exact ⟨_, rfl⟩
  have T := testInParallel_records_every_failure ⟨false, []⟩ checks3 h
  ⟨h, T.1, by decide, ((T.2 _).2.2 (by decide)).2.2.2.1⟩

/-! ## Theorems: TestImageFromSource -/

theorem mem_eventsOfCalls (fs : List Check) (calls : List Nat) (e : Event)
    (h : e ∈ eventsOfCalls fs calls) :
    ∃ i f, i ∈ calls ∧ fs[i]? = some f ∧ e ∈ (f ()).events := by
  induction calls with
  | nil => simp [eventsOfCalls] at h
  | cons i is ih =>
    simp only [eventsOfCalls, List.mem_append] at h
    rcases h with h | h
    · cases hf : fs[i]? with
      | none => simp [hf] at h
      | some f =>
        rw [hf] at h
        exact ⟨i, f, List.mem_cons_self _ _, hf, h⟩
    · obtain ⟨j, f, hj, hf, he⟩ := ih h
      exact ⟨j, f, List.mem_cons_of_mem _ hj, hf, he⟩

theorem loop_events (env : Env) (url : String) (r : Nat) :
    ∀ (err : Option String) (e : Event), e ∈ (checkHTTPConnectivity.loop env url r err).2 →
      e = Event.head url ∨ e = Event.sleep 1 ∨ e = Event.closeBody := by
  induction r with
  | zero =>
    intro err e h
    simp [checkHTTPConnectivity.loop] at h
  | succ r ih =>
    intro err e h
    cases hh : env.head url (maxAttempts - (r + 1)) with
    | transportError x =>
      rw [loop_transportError env url r err x hh] at h
      simp only [List.mem_cons] at h
      rcases h with h | h | h
      · exact Or.inl h
      · exact Or.inr (Or.inl h)
      · exact ih _ e h
    | response st =>
      rw [loop_response env url r err st hh] at h
      simp only [List.mem_cons, List.mem_singleton, List.not_mem_nil, or_false] at h
      rcases h with h | h
      · exact Or.inl h
      · exact Or.inr (Or.inr h)

theorem inspect_events (env : Env) (containerID : String) :
    (inspectContainerIP env containerID).2 = [inspectEvent containerID] := by
  simp only [inspectContainerIP, CombinedOutput, inspectEvent]
  split <;> rfl

theorem runApp_events (env : Env) (imageName : String) :
    (runApp env imageName).2 = [runEvent imageName] := by
  simp only [runApp, CombinedOutput, runEvent]
  split <;> rfl

theorem stopTestApp_events (env : Env) (containerID : String) :
    (stopTestApp env containerID).2 = [stopEvent containerID] := by
  simp only [stopTestApp, CombinedOutput, stopEvent]
  split <;> rfl

theorem checkSCLEnabled_events (env : Env) (imageName containerID : String) (e : Event)
    (h : e ∈ (checkSCLEnabled env imageName containerID).2) :
    e = Event.command ["docker", "exec", containerID, "bash", "-c", "ruby --version"] ∨
    e = Event.command ["docker", "run", "--rm", imageName, "bash", "-c", "ruby --version"] := by
  have hc : checkSCLEnabled env imageName containerID =
      CheckSCLEnabled env "ruby --version" "ruby 2.0.0" imageName containerID := rfl
  rw [hc, CheckSCLEnabled_eq] at h
  split at h
  · simp only [List.mem_singleton] at h
    exact Or.inl h
  · simp only [List.mem_cons, List.mem_singleton, List.not_mem_nil, or_false] at h
    exact h

/-- The events of the first check: the inspection, then only HEAD requests,
sleeps and the closing of the response; after a failed inspection, nothing. -/
theorem connectivityCheck_events (env : Env) (containerID : String) (e : Event)
    (h : e ∈ (connectivityCheck env containerID ()).events) :
    e = inspectEvent containerID ∨
    ((inspectContainerIP env containerID).1.2 = none ∧
      (e.isHead = true ∨ e.isSleep = true ∨ e = Event.closeBody)) := by
  simp only [connectivityCheck, inspect_events] at h
  split at h
  · simp only [List.mem_singleton] at h
    exact Or.inl h
  · rename_i hnone
    simp only [List.singleton_append, List.mem_cons] at h
    rcases h with h | h
    · exact Or.inl h
    · right
      refine ⟨hnone, ?_⟩
      rcases loop_events env _ _ _ e h with h | h | h
      · exact Or.inl (by rw [h]; rfl)
      · exact Or.inr (Or.inl (by rw [h]; rfl))
      · exact Or.inr (Or.inr h)

theorem sclCheck_events (env : Env) (outputImage containerID : String) (e : Event)
    (h : e ∈ (sclCheck env outputImage containerID ()).events) :
    e = Event.command ["docker", "exec", containerID, "bash", "-c", "ruby --version"] ∨
    e = Event.command ["docker", "run", "--rm", outputImage, "bash", "-c", "ruby --version"] :=
  checkSCLEnabled_events env outputImage containerID e h

/-- The events of the two checks of `TestImageFromSource`, whatever the
schedule. -/
theorem verify_events (env : Env) (t : T) (sched : List Action)
    (outputImage containerID : String) (e : Event)
    (h : e ∈ (testInParallel t
      [connectivityCheck env containerID, sclCheck env outputImage containerID] sched).trace) :
    e = inspectEvent containerID ∨
    ((inspectContainerIP env containerID).1.2 = none ∧
      (e.isHead = true ∨ e.isSleep = true ∨ e = Event.closeBody)) ∨
    e = Event.command ["docker", "exec", containerID, "bash", "-c", "ruby --version"] ∨
    e = Event.command ["docker", "run", "--rm", outputImage, "bash", "-c", "ruby --version"] := by
  rw [(Inv_testInParallel _ t sched).trace] at h
  obtain ⟨i, f, _, hf, he⟩ := mem_eventsOfCalls _ _ e h
  match i, hf with
  | 0, hf =>
    simp only [List.getElem?_cons_zero, Option.some.injEq] at hf
    subst hf
    rcases connectivityCheck_events env containerID e he with h1 | h1
    · exact Or.inl h1
    · exact Or.inr (Or.inl h1)
  | 1, hf =>
    simp only [List.getElem?_cons_succ, List.getElem?_cons_zero, Option.some.injEq] at hf
    subst hf
    exact Or.inr (Or.inr (sclCheck_events env outputImage containerID e he))
  | n + 2, hf => simp at hf

theorem verify_no_build (env : Env) (t : T) (sched : List Action)
    (outputImage containerID : String) :
    (testInParallel t
      [connectivityCheck env containerID, sclCheck env outputImage containerID]
      sched).trace.countP Event.isBuild = 0 := by
  rw [List.countP_eq_zero]
  intro e he
  rcases verify_events env t sched outputImage containerID e he with h | ⟨_, h | h | h⟩ | h | h
  · simp [h, inspectEvent, Event.isBuild]
  · cases e <;> simp [Event.isHead, Event.isBuild] at h ⊢
  · cases e <;> simp [Event.isSleep, Event.isBuild] at h ⊢
  · simp [h, Event.isBuild]
  · simp [h, Event.isBuild]
  · simp [h, Event.isBuild]

theorem verify_no_teardown (env : Env) (t : T) (sched : List Action)
    (outputImage containerID : String) :
    (testInParallel t
      [connectivityCheck env containerID, sclCheck env outputImage containerID]
      sched).trace.countP Event.isTeardown = 0 := by
  rw [List.countP_eq_zero]
  intro e he
  rcases verify_events env t sched outputImage containerID e he with h | ⟨_, h | h | h⟩ | h | h
  · simp [h, inspectEvent, Event.isTeardown]
  · cases e <;> simp [Event.isHead, Event.isTeardown] at h ⊢
  · cases e <;> simp [Event.isSleep, Event.isTeardown] at h ⊢
  · simp [h, Event.isTeardown]
  · simp [h, Event.isTeardown]
  · simp [h, Event.isTeardown]

/-- After a failed inspection no HEAD request is made, whatever the schedule. -/
theorem verify_no_head (env : Env) (t : T) (sched : List Action)
    (outputImage containerID : String)
    (hfail : (inspectContainerIP env containerID).1.2 ≠ none) :
    (testInParallel t
      [connectivityCheck env containerID, sclCheck env outputImage containerID]
      sched).trace.countP Event.isHead = 0 := by
  rw [List.countP_eq_zero]
  intro e he
  rcases verify_events env t sched outputImage containerID e he with h | ⟨h, _⟩ | h | h
  · simp [h, inspectEvent, Event.isHead]
  · exact absurd h hfail
  · simp [h, Event.isHead]
  · simp [h, Event.isHead]

/-- The three ways the part of `TestImageFromSource` from `runApp` on can go. -/
theorem fromRun_cases (env : Env) (sched : List Action) (t : T) (pre : List Event)
    (outputImage : String) :
    (∃ err, (runApp env outputImage).1.2 = some err ∧
      TestImageFromSource.fromRun env sched t pre outputImage =
        { t := t.Fatal err, trace := pre ++ [runEvent outputImage], status := .fatal }) ∨
    ((runApp env outputImage).1.2 = none ∧
      (testInParallel t [connectivityCheck env (runApp env outputImage).1.1,
        sclCheck env outputImage (runApp env outputImage).1.1] sched).returned = true ∧
      TestImageFromSource.fromRun env sched t pre outputImage =
        { t := (testInParallel t [connectivityCheck env (runApp env outputImage).1.1,
            sclCheck env outputImage (runApp env outputImage).1.1] sched).t
          trace := pre ++ [runEvent outputImage] ++
            (testInParallel t [connectivityCheck env (runApp env outputImage).1.1,
              sclCheck env outputImage (runApp env outputImage).1.1] sched).trace ++
            [stopEvent (runApp env outputImage).1.1]
          status := .finished }) ∨
    ((runApp env outputImage).1.2 = none ∧
      (testInParallel t [connectivityCheck env (runApp env outputImage).1.1,
        sclCheck env outputImage (runApp env outputImage).1.1] sched).returned = false ∧
      TestImageFromSource.fromRun env sched t pre outputImage =
        { t := (testInParallel t [connectivityCheck env (runApp env outputImage).1.1,
            sclCheck env outputImage (runApp env outputImage).1.1] sched).t
          trace := pre ++ [runEvent outputImage] ++
            (testInParallel t [connectivityCheck env (runApp env outputImage).1.1,
              sclCheck env outputImage (runApp env outputImage).1.1] sched).trace
          status := .waiting }) := by
  cases hr : (runApp env outputImage).1.2 with
  | some err =>
    left
    refine ⟨err, rfl, ?_⟩
    simp only [TestImageFromSource.fromRun, hr, runApp_events]
  | none =>
    right
    cases hp : (testInParallel t [connectivityCheck env (runApp env outputImage).1.1,
        sclCheck env outputImage (runApp env outputImage).1.1] sched).returned with
    | true =>
      left
      refine ⟨rfl, rfl, ?_⟩
      simp only [TestImageFromSource.fromRun, hr, hp, runApp_events, stopTestApp_events, if_true]
    | false =>
      right
      refine ⟨rfl, rfl, ?_⟩
      simp only [TestImageFromSource.fromRun, hr, hp, runApp_events, if_false]
      simp

/-- The events from `runApp` on: the start of the container first, and no run
of the builder. -/
theorem fromRun_trace (env : Env) (sched : List Action) (t : T) (pre : List Event)
    (outputImage : String) :
    ∃ body, (TestImageFromSource.fromRun env sched t pre outputImage).trace =
      pre ++ runEvent outputImage :: body ∧ body.countP Event.isBuild = 0 := by
  have hb := verify_no_build env t sched outputImage (runApp env outputImage).1.1
  rcases fromRun_cases env sched t pre outputImage with
    ⟨err, _, h⟩ | ⟨_, _, h⟩ | ⟨_, _, h⟩
  · exact ⟨[], by rw [h], rfl⟩
  · refine ⟨(testInParallel t [connectivityCheck env (runApp env outputImage).1.1,
      sclCheck env outputImage (runApp env outputImage).1.1] sched).trace ++
      [stopEvent (runApp env outputImage).1.1], by rw [h]; simp, ?_⟩
    rw [List.countP_append, hb]
    simp [stopEvent, Event.isBuild]
  · exact ⟨(testInParallel t [connectivityCheck env (runApp env outputImage).1.1,
      sclCheck env outputImage (runApp env outputImage).1.1] sched).trace, by rw [h]; simp, hb⟩

/-- C7: with the flag `reuseImages` set, `TestImageFromSource` never runs the
builder, whatever the builder image, source, context directory and output
image, and its first action is to start a container from the output image;
with the flag clear its first action is the one run of the builder
`sti build --force-pull=false --context-dir=<dir> <source> <builder> <output>`,
no other run of the builder follows, a failed build is the only action, and
after a successful build the start of the container comes next. -/
theorem reuseImages_skips_build (env : Env) (sched : List Action) (t : T)
    (builderImage source contextDir outputImage : String) :
    ((TestImageFromSource true env sched t builderImage source contextDir
        outputImage).trace.countP Event.isBuild = 0 ∧
      (TestImageFromSource true env sched t builderImage source contextDir
        outputImage).trace.head? = some (runEvent outputImage)) ∧
    ((TestImageFromSource false env sched t builderImage source contextDir
        outputImage).trace.countP Event.isBuild = 1 ∧
      (∃ rest, (TestImageFromSource false env sched t builderImage source contextDir
          outputImage).trace = buildEvent builderImage source contextDir outputImage :: rest ∧
        rest.countP Event.isBuild = 0 ∧
        ((buildApp env builderImage source contextDir outputImage).1.err ≠ none → rest = []) ∧
        ((buildApp env builderImage source contextDir outputImage).1.err = none →
          rest.head? = some (runEvent outputImage)))) := by
  constructor
  · obtain ⟨body, h1, h2⟩ := fromRun_trace env sched t [] outputImage
    have e : TestImageFromSource true env sched t builderImage source contextDir outputImage =
        TestImageFromSource.fromRun env sched t [] outputImage := by
      simp [TestImageFromSource]
    have hrun : (runEvent outputImage).isBuild = false := rfl
    rw [e, h1]
    constructor
    · simp [List.countP_cons, h2, hrun]
    · rfl
  · have hev : (buildApp env builderImage source contextDir outputImage).2 =
        [buildEvent builderImage source contextDir outputImage] := rfl
    have hisb : (buildEvent builderImage source contextDir outputImage).isBuild = true := rfl
    cases hb : (buildApp env builderImage source contextDir outputImage).1.err with
    | some err =>
      have e : (TestImageFromSource false env sched t builderImage source contextDir
          outputImage).trace = [buildEvent builderImage source contextDir outputImage] := by
        simp only [TestImageFromSource, hb, hev]
        cases (buildApp env builderImage source contextDir outputImage).1.out <;> rfl
      rw [e]
      exact ⟨by simp [List.countP_cons, hisb], [], rfl, rfl, fun _ => rfl, fun h => by cases h⟩
    | none =>
      obtain ⟨body, h1, h2⟩ := fromRun_trace env sched t
        [buildEvent builderImage source contextDir outputImage] outputImage
      have e : TestImageFromSource false env sched t builderImage source contextDir outputImage =
          TestImageFromSource.fromRun env sched t
            [buildEvent builderImage source contextDir outputImage] outputImage := by
        simp only [TestImageFromSource, hb, hev]
        rfl
      have hrun : (runEvent outputImage).isBuild = false := rfl
      rw [e, h1]
      refine ⟨?_, runEvent outputImage :: body, rfl, ?_, fun h => absurd rfl h, fun _ => rfl⟩
      · simp [List.countP_cons, h2, hisb, hrun]
      · simp [List.countP_cons, h2, hrun]

theorem connectivityCheck_goexit (env : Env) (containerID err : String)
    (hfail : (inspectContainerIP env containerID).1.2 = some err) :
    (connectivityCheck env containerID ()).outcome = .goexit err := by
  simp only [connectivityCheck, hfail]

/-- After a failed inspection the first goroutine never reaches `wg.Done()`, so
`testInParallel` does not return, whatever the schedule. -/
theorem inspect_failure_never_returns (env : Env) (t : T) (sched : List Action)
    (outputImage containerID err : String)
    (hfail : (inspectContainerIP env containerID).1.2 = some err) :
    (testInParallel t
      [connectivityCheck env containerID, sclCheck env outputImage containerID]
      sched).returned = false := by
  cases hr : (testInParallel t
      [connectivityCheck env containerID, sclCheck env outputImage containerID]
      sched).returned with
  | false => rfl
  | true =>
    obtain ⟨e, he⟩ := returned_all_ret _ t _ (Inv_testInParallel _ t sched) hr
      (connectivityCheck env containerID) (List.mem_cons_self _ _)
    rw [connectivityCheck_goexit env containerID err hfail] at he
    cases he

/-- Once a failed inspection has been performed, the test is marked failed and
the error is in its log. -/
theorem inspect_failure_reported (env : Env) (t : T) (sched : List Action)
    (outputImage containerID err : String)
    (hfail : (inspectContainerIP env containerID).1.2 = some err)
    (hev : inspectEvent containerID ∈ (testInParallel t
      [connectivityCheck env containerID, sclCheck env outputImage containerID] sched).trace) :
    (testInParallel t
      [connectivityCheck env containerID, sclCheck env outputImage containerID]
      sched).t.failed = true ∧
    err ∈ (testInParallel t
      [connectivityCheck env containerID, sclCheck env outputImage containerID]
      sched).t.log := by
  have h := Inv_testInParallel
    [connectivityCheck env containerID, sclCheck env outputImage containerID] t sched
  rw [h.trace] at hev
  obtain ⟨i, f, hi, hf, he⟩ := mem_eventsOfCalls _ _ _ hev
  have h0 : i = 0 := by
    match i, hf with
    | 0, _ => rfl
    | 1, hf =>
      simp only [List.getElem?_cons_succ, List.getElem?_cons_zero, Option.some.injEq] at hf
      subst hf
      rcases sclCheck_events env outputImage containerID _ he with h1 | h1 <;>
        simp [inspectEvent] at h1
    | n + 2, hf => simp at hf
  subst h0
  have hc := h.calls 0
  have hpos : 0 < List.count 0 (testInParallel t
      [connectivityCheck env containerID, sclCheck env outputImage containerID]
      sched).calls := List.count_pos_iff.2 hi
  have hsome : (resultAt (testInParallel t
      [connectivityCheck env containerID, sclCheck env outputImage containerID]
      sched).gs 0).isSome = true := by
    by_contra hn
    rw [if_neg hn] at hc
    omega
  obtain ⟨o, ho⟩ := Option.isSome_iff_exists.1 hsome
  obtain ⟨f2, hf2, ho2⟩ := h.res 0 o ho
  simp only [List.getElem?_cons_zero, Option.some.injEq] at hf2
  subst hf2
  rw [connectivityCheck_goexit env containerID err hfail] at ho2
  subst ho2
  unfold resultAt at ho
  cases hg : (testInParallel t
      [connectivityCheck env containerID, sclCheck env outputImage containerID]
      sched).gs[0]? with
  | none => simp [hg] at ho
  | some g =>
    rw [hg] at ho
    have hdead : g = G.dead err := by
      cases g <;> simp [G.result] at ho
      rw [ho]
    subst hdead
    obtain ⟨hlt, hget⟩ := List.getElem?_eq_some.1 hg
    have hmem : G.dead err ∈ (testInParallel t
        [connectivityCheck env containerID, sclCheck env outputImage containerID]
        sched).gs := hget ▸ List.getElem_mem hlt
    constructor
    · rw [h.failed]
      have : ((testInParallel t
          [connectivityCheck env containerID, sclCheck env outputImage containerID]
          sched).gs.any fun g => g.logged.isSome) = true :=
        List.any_eq_true.2 ⟨_, hmem, rfl⟩
      rw [this, Bool.or_true]
    · obtain ⟨entries, h1, h2⟩ := h.log
      rw [h1]
      refine List.mem_append_right _ (h2.mem_iff.2 ?_)
      exact List.mem_filterMap.2 ⟨_, hmem, rfl⟩

/-- When `testInParallel` has returned from the two checks of
`TestImageFromSource`, the test is marked failed exactly if it was before or
one of the two checks returned an error. -/
theorem verify_failed (env : Env) (t : T) (sched : List Action)
    (outputImage containerID : String)
    (hr : (testInParallel t
      [connectivityCheck env containerID, sclCheck env outputImage containerID]
      sched).returned = true) :
    (testInParallel t
      [connectivityCheck env containerID, sclCheck env outputImage containerID]
      sched).t.failed =
      (t.failed || ((connectivityCheck env containerID).err.isSome ||
        (sclCheck env outputImage containerID).err.isSome)) := by
  have h := Inv_testInParallel
    [connectivityCheck env containerID, sclCheck env outputImage containerID] t sched
  rw [h.failed, any_logged_eq _ _ (returned_logged _ t _ h hr)]
  simp

theorem TestImageFromSource_reuse (env : Env) (sched : List Action) (t : T)
    (builderImage source contextDir outputImage : String) :
    TestImageFromSource true env sched t builderImage source contextDir outputImage =
      TestImageFromSource.fromRun env sched t [] outputImage := by
  simp [TestImageFromSource]

theorem TestImageFromSource_built (env : Env) (sched : List Action) (t : T)
    (builderImage source contextDir outputImage : String)
    (hb : (buildApp env builderImage source contextDir outputImage).1.err = none) :
    TestImageFromSource false env sched t builderImage source contextDir outputImage =
      TestImageFromSource.fromRun env sched t
        [buildEvent builderImage source contextDir outputImage] outputImage := by
  simp only [TestImageFromSource, hb]
  rfl

/-- The part of the scenario before `runApp`: nothing in reuse mode, else the
build. -/
theorem TestImageFromSource_fromRun (reuseImages : Bool) (env : Env) (sched : List Action)
    (t : T) (builderImage source contextDir outputImage : String)
    (hb : reuseImages = false →
      (buildApp env builderImage source contextDir outputImage).1.err = none) :
    TestImageFromSource reuseImages env sched t builderImage source contextDir outputImage =
      TestImageFromSource.fromRun env sched t
        (if reuseImages then [] else [buildEvent builderImage source contextDir outputImage])
        outputImage := by
  cases reuseImages with
  | true => exact TestImageFromSource_reuse env sched t builderImage source contextDir outputImage
  | false =>
    exact TestImageFromSource_built env sched t builderImage source contextDir outputImage
      (hb rfl)

/-- C6, the code at the failing input: the container starts with identifier
"c1" and `docker inspect` fails. Under every schedule `TestImageFromSource` is
still inside `testInParallel` and no `docker rm` has been run; under the
schedule that lets every goroutine run, the inspection and both commands of the
second check have been performed, the test is marked failed, and the function
is still waiting. -/
theorem teardown_missed_after_failed_inspect (sched : List Action) :
    (runApp envNoInspect "app-test").1 = ("c1", none) ∧
    (inspectContainerIP envNoInspect "c1").1 =
      ("", some "exit status 1: Error: No such object: c1\n") ∧
    (TestImageFromSource false envNoInspect sched ⟨false, []⟩ "ruby-22-centos7"
      "https://example/app" "" "app-test").status = .waiting ∧
    (TestImageFromSource false envNoInspect sched ⟨false, []⟩ "ruby-22-centos7"
      "https://example/app" "" "app-test").trace.countP Event.isTeardown = 0 ∧
    TestImageFromSource false envNoInspect (seqSchedule 2 ++ seqSchedule 2) ⟨false, []⟩
      "ruby-22-centos7" "https://example/app" "" "app-test" =
      { t := ⟨true, ["exit status 1: Error: No such object: c1\n"]⟩
        trace := [buildEvent "ruby-22-centos7" "https://example/app" "" "app-test",
          runEvent "app-test", inspectEvent "c1",
          Event.command ["docker", "exec", "c1", "bash", "-c", "ruby --version"],
          Event.command ["docker", "run", "--rm", "app-test", "bash", "-c", "ruby --version"]]
        status := .waiting } := by
  have hrun : (runApp envNoInspect "app-test").1 = ("c1", none) := by decide
  have hins : (inspectContainerIP envNoInspect "c1").1 =
      ("", some "exit status 1: Error: No such object: c1\n") := by decide
  have hins2 : (inspectContainerIP envNoInspect (runApp envNoInspect "app-test").1.1).1.2 =
      some "exit status 1: Error: No such object: c1\n" := by rw [hrun, hins]
  have hnr := inspect_failure_never_returns envNoInspect ⟨false, []⟩ sched "app-test"
    (runApp envNoInspect "app-test").1.1 _ hins2
  have hnt := verify_no_teardown envNoInspect ⟨false, []⟩ sched "app-test"
    (runApp envNoInspect "app-test").1.1
  refine ⟨hrun, hins, ?_, ?_, by decide⟩
  · rw [TestImageFromSource_built _ _ _ _ _ _ _ (by decide)]
    rcases fromRun_cases envNoInspect sched ⟨false, []⟩
      [buildEvent "ruby-22-centos7" "https://example/app" "" "app-test"] "app-test" with
      ⟨err, h1, _⟩ | ⟨_, h1, _⟩ | ⟨_, _, h⟩
    · rw [hrun] at h1; cases h1
    · rw [hnr] at h1; cases h1
    · rw [h]
  · rw [TestImageFromSource_built _ _ _ _ _ _ _ (by decide)]
    rcases fromRun_cases envNoInspect sched ⟨false, []⟩
      [buildEvent "ruby-22-centos7" "https://example/app" "" "app-test"] "app-test" with
      ⟨err, h1, _⟩ | ⟨_, h1, _⟩ | ⟨_, _, h⟩
    · rw [hrun] at h1; cases h1
    · rw [hnr] at h1; cases h1
    · rw [h]
      simp only [List.countP_append, hnt]
      rfl

/-- C8 fails for teardown: the container is started as "c1", both checks pass,
`docker rm -f c1` fails and `stopTestApp` returns the error
"exit status 1: Error: No such container: c1\n", yet the scenario finishes
with the test not marked failed and nothing logged. -/
theorem teardown_failure_not_reported :
    (stopTestApp envRmFails "c1").1 =
      some "exit status 1: Error: No such container: c1\n" ∧
    (TestImageFromSource false envRmFails (seqSchedule 2) ⟨false, []⟩ "ruby-22-centos7"
      "https://example/app" "" "app-test").status = .finished ∧
    (TestImageFromSource false envRmFails (seqSchedule 2) ⟨false, []⟩ "ruby-22-centos7"
      "https://example/app" "" "app-test").trace.getLast? = some (stopEvent "c1") ∧
    (TestImageFromSource false envRmFails (seqSchedule 2) ⟨false, []⟩ "ruby-22-centos7"
      "https://example/app" "" "app-test").t = ⟨false, []⟩ := by
  decide

theorem TestImageFromSource_build_failed (env : Env) (sched : List Action) (t : T)
    (builderImage source contextDir outputImage err : String)
    (hb : (buildApp env builderImage source contextDir outputImage).1.err = some err) :
    TestImageFromSource false env sched t builderImage source contextDir outputImage =
      { t := t.Fatal (match (buildApp env builderImage source contextDir outputImage).1.out with
          | some out => "\n" ++ out ++ "\n" ++ err
          | none => err)
        trace := [buildEvent builderImage source contextDir outputImage]
        status := .fatal } := by
  simp only [TestImageFromSource, hb]
  cases (buildApp env builderImage source contextDir outputImage).1.out <;> rfl

/-- A scenario that finished got through `runApp` and `testInParallel`. -/
theorem finished_cases (reuseImages : Bool) (env : Env) (sched : List Action) (t : T)
    (builderImage source contextDir outputImage : String)
    (hfin : (TestImageFromSource reuseImages env sched t builderImage source contextDir
      outputImage).status = .finished) :
    (testInParallel t [connectivityCheck env (runApp env outputImage).1.1,
      sclCheck env outputImage (runApp env outputImage).1.1] sched).returned = true ∧
    TestImageFromSource reuseImages env sched t builderImage source contextDir outputImage =
      { t := (testInParallel t [connectivityCheck env (runApp env outputImage).1.1,
          sclCheck env outputImage (runApp env outputImage).1.1] sched).t
        trace := (if reuseImages then []
            else [buildEvent builderImage source contextDir outputImage]) ++
          [runEvent outputImage] ++
          (testInParallel t [connectivityCheck env (runApp env outputImage).1.1,
            sclCheck env outputImage (runApp env outputImage).1.1] sched).trace ++
          [stopEvent (runApp env outputImage).1.1]
        status := .finished } := by
  have hb : reuseImages = false →
      (buildApp env builderImage source contextDir outputImage).1.err = none := by
    intro hre
    subst hre
    cases hb : (buildApp env builderImage source contextDir outputImage).1.err with
    | none => rfl
    | some err =>
      rw [TestImageFromSource_build_failed env sched t _ _ _ _ err hb] at hfin
      cases hfin
  have e := TestImageFromSource_fromRun reuseImages env sched t builderImage source contextDir
    outputImage hb
  rw [e] at hfin ⊢
  rcases fromRun_cases env sched t
    (if reuseImages then [] else [buildEvent builderImage source contextDir outputImage])
    outputImage with ⟨err, _, h⟩ | ⟨_, hr, h⟩ | ⟨_, _, h⟩
  · rw [h] at hfin; cases hfin
  · exact ⟨hr, h⟩
  · rw [h] at hfin; cases hfin

/-- C8 as amended: a failed build is fatal, marks the test failed and is the
only step of the scenario; a failed run (after a build that succeeded or was
skipped) is fatal, marks the test failed, and is the last step, with no
verification and no teardown; after a failed inspect no HEAD request is ever
made, and once the inspection has been performed the test is marked failed with
the error in its log; and when the scenario finishes, its last step is the
teardown and the test is marked failed exactly if it was before or one of the
two checks returned an error, whatever the teardown returned. -/
theorem failures_abort_scenario (env : Env) (sched : List Action) (t : T)
    (builderImage source contextDir outputImage : String) :
    (∀ err, (buildApp env builderImage source contextDir outputImage).1.err = some err →
      (TestImageFromSource false env sched t builderImage source contextDir
        outputImage).status = .fatal ∧
      (TestImageFromSource false env sched t builderImage source contextDir
        outputImage).t.failed = true ∧
      (∀ out, (buildApp env builderImage source contextDir outputImage).1.out = some out →
        (TestImageFromSource false env sched t builderImage source contextDir
          outputImage).t.log = t.log ++ ["\n" ++ out ++ "\n" ++ err]) ∧
      ((buildApp env builderImage source contextDir outputImage).1.out = none →
        (TestImageFromSource false env sched t builderImage source contextDir
          outputImage).t.log = t.log ++ [err]) ∧
      (TestImageFromSource false env sched t builderImage source contextDir
        outputImage).trace = [buildEvent builderImage source contextDir outputImage]) ∧
    (∀ reuseImages err,
      (reuseImages = false →
        (buildApp env builderImage source contextDir outputImage).1.err = none) →
      (runApp env outputImage).1.2 = some err →
      TestImageFromSource reuseImages env sched t builderImage source contextDir outputImage =
        { t := ⟨true, t.log ++ [err]⟩
          trace := (if reuseImages then []
            else [buildEvent builderImage source contextDir outputImage]) ++
            [runEvent outputImage]
          status := .fatal }) ∧
    (∀ reuseImages err,
      (reuseImages = false →
        (buildApp env builderImage source contextDir outputImage).1.err = none) →
      (runApp env outputImage).1.2 = none →
      (inspectContainerIP env (runApp env outputImage).1.1).1.2 = some err →
      (TestImageFromSource reuseImages env sched t builderImage source contextDir
        outputImage).trace.countP Event.isHead = 0 ∧
      (inspectEvent (runApp env outputImage).1.1 ∈
          (TestImageFromSource reuseImages env sched t builderImage source contextDir
            outputImage).trace →
        (TestImageFromSource reuseImages env sched t builderImage source contextDir
          outputImage).t.failed = true ∧
        err ∈ (TestImageFromSource reuseImages env sched t builderImage source contextDir
          outputImage).t.log)) ∧
    (∀ reuseImages,
      (TestImageFromSource reuseImages env sched t builderImage source contextDir
        outputImage).status = .finished →
      (TestImageFromSource reuseImages env sched t builderImage source contextDir
        outputImage).trace.getLast? = some (stopEvent (runApp env outputImage).1.1) ∧
      (TestImageFromSource reuseImages env sched t builderImage source contextDir
        outputImage).t.failed =
        (t.failed || ((connectivityCheck env (runApp env outputImage).1.1).err.isSome ||
          (sclCheck env outputImage (runApp env outputImage).1.1).err.isSome))) := by
  refine ⟨?_, ?_, ?_, ?_⟩
  · intro err hb
    rw [TestImageFromSource_build_failed env sched t _ _ _ _ err hb]
    refine ⟨rfl, rfl, ?_, ?_, rfl⟩
    · intro out ho
      simp only [ho, T.Fatal]
    · intro ho
      simp only [ho, T.Fatal]
  · intro reuseImages err hb hr
    rw [TestImageFromSource_fromRun reuseImages env sched t _ _ _ _ hb]
    rcases fromRun_cases env sched t
      (if reuseImages then [] else [buildEvent builderImage source contextDir outputImage])
      outputImage with ⟨err2, h1, h⟩ | ⟨h1, _, _⟩ | ⟨h1, _, _⟩
    · rw [hr] at h1
      cases h1
      rw [h]
      rfl
    · rw [hr] at h1; cases h1
    · rw [hr] at h1; cases h1
  · intro reuseImages err hb hr hi
    have hnr := inspect_failure_never_returns env t sched outputImage _ err hi
    have hnh := verify_no_head env t sched outputImage (runApp env outputImage).1.1
      (by rw [hi]; simp)
    rw [TestImageFromSource_fromRun reuseImages env sched t _ _ _ _ hb]
    rcases fromRun_cases env sched t
      (if reuseImages then [] else [buildEvent builderImage source contextDir outputImage])
      outputImage with ⟨err2, h1, _⟩ | ⟨_, h1, _⟩ | ⟨_, _, h⟩
    · rw [hr] at h1; cases h1
    · rw [hnr] at h1; cases h1
    · rw [h]
      constructor
      · simp only [List.countP_append, hnh]
        cases reuseImages <;> rfl
      · intro hmem
        simp only [List.mem_append, List.mem_singleton] at hmem
        rcases hmem with (hmem | hmem) | hmem
        · cases reuseImages <;> simp [inspectEvent, buildEvent] at hmem
        · simp [inspectEvent, runEvent] at hmem
        · exact inspect_failure_reported env t sched outputImage _ err hi hmem
  · intro reuseImages hfin
    obtain ⟨hr, h⟩ := finished_cases reuseImages env sched t _ _ _ _ hfin
    rw [h]
    refine ⟨?_, verify_failed env t sched outputImage _ hr⟩
    show (_ ++ [stopEvent (runApp env outputImage).1.1]).getLast? = _
    rw [List.getLast?_append]
    rfl

theorem failures_abort_scenario_witness :
    (buildApp envFailing "ruby-22-centos7" "https://example/app" "" "app-test").1.err =
      some "exit status 1" ∧
    (TestImageFromSource false envFailing (seqSchedule 2) ⟨false, []⟩ "ruby-22-centos7"
      "https://example/app" "" "app-test").status = .fatal ∧
    (TestImageFromSource false envFailing (seqSchedule 2) ⟨false, []⟩ "ruby-22-centos7"
      "https://example/app" "" "app-test").t.failed = true ∧
    (runApp envFailing "app-test").1.2 =
      some ("exit status 1" ++ ": " ++ "Cannot connect to the Docker daemon.\n") ∧
    TestImageFromSource true envFailing (seqSchedule 2) ⟨false, []⟩ "ruby-22-centos7"
        "https://example/app" "" "app-test" =
      { t := ⟨true, [] ++ ["exit status 1" ++ ": " ++ "Cannot connect to the Docker daemon.\n"]⟩
        trace := (if true then []
          else [buildEvent "ruby-22-centos7" "https://example/app" "" "app-test"]) ++
          [runEvent "app-test"]
        status := .fatal } ∧
    ((TestImageFromSource false envRmFails (seqSchedule 2) ⟨false, []⟩ "ruby-22-centos7"
      "https://example/app" "" "app-test").status = .finished ∧
     (TestImageFromSource false envRmFails (seqSchedule 2) ⟨false, []⟩ "ruby-22-centos7"
      "https://example/app" "" "app-test").t.failed =
      (false || ((connectivityCheck envRmFails (runApp envRmFails "app-test").1.1).err.isSome ||
        (sclCheck envRmFails "app-test" (runApp envRmFails "app-test").1.1).err.isSome))) :=
  have A := failures_abort_scenario envFailing (seqSchedule 2) ⟨false, []⟩ "ruby-22-centos7"
    "https://example/app" "" "app-test"
  have B := failures_abort_scenario envRmFails (seqSchedule 2) ⟨false, []⟩ "ruby-22-centos7"
    "https://example/app" "" "app-test"
  have hb := A.1 "exit status 1" rfl
  ⟨rfl, hb.1, hb.2.1, rfl,
    A.2.1 true ("exit status 1" ++ ": " ++ "Cannot connect to the Docker daemon.\n")
      (fun h => by cases h) rfl,
    by decide, (B.2.2.2 false (by decide)).2⟩

/-- Where teardown does happen: a scenario that finishes ran `docker rm -f`
exactly once, as its last step, with the identifier `runApp` returned; a
scenario that has not finished ran it never. -/
theorem teardown_once_iff_finished (reuseImages : Bool) (env : Env) (sched : List Action)
    (t : T) (builderImage source contextDir outputImage : String) :
    (TestImageFromSource reuseImages env sched t builderImage source contextDir
      outputImage).trace.countP Event.isTeardown =
      if (TestImageFromSource reuseImages env sched t builderImage source contextDir
        outputImage).status = .finished then 1 else 0 := by
  have hnt := verify_no_teardown env t sched outputImage (runApp env outputImage).1.1
  have hbe : (buildEvent builderImage source contextDir outputImage).isTeardown = false := rfl
  have hre : (runEvent outputImage).isTeardown = false := rfl
  have hse : (stopEvent (runApp env outputImage).1.1).isTeardown = true := rfl
  have hpre : (if reuseImages then []
      else [buildEvent builderImage source contextDir outputImage]).countP
        Event.isTeardown = 0 := by
    cases reuseImages <;> simp [hbe]
  by_cases hb : reuseImages = false →
      (buildApp env builderImage source contextDir outputImage).1.err = none
  · rw [TestImageFromSource_fromRun reuseImages env sched t _ _ _ _ hb]
    rcases fromRun_cases env sched t
      (if reuseImages then [] else [buildEvent builderImage source contextDir outputImage])
      outputImage with ⟨err, _, h⟩ | ⟨_, _, h⟩ | ⟨_, _, h⟩
    · rw [h]
      simp [List.countP_append, hpre, hre]
    · rw [h]
      simp [List.countP_append, hpre, hre, hnt, hse]
    · rw [h]
      simp [List.countP_append, hpre, hre, hnt]
  · have hre2 : reuseImages = false := by
      cases reuseImages with
      | false => rfl
      | true => exact absurd (fun h => by cases h) hb
    subst hre2
    cases hbe2 : (buildApp env builderImage source contextDir outputImage).1.err with
    | none => exact absurd (fun _ => hbe2) hb
    | some err =>
      rw [TestImageFromSource_build_failed env sched t _ _ _ _ err hbe2]
      simp [hbe]

end Imagetest
